import Mathlib

/-!
CMake provider of the create_project tool

A shallow embedding of `devtools/create_project/cmake.cpp` (namespace
`CreateProjectTool`) and the properties of its emitted `CMakeLists.txt`.

Modelling conventions:

* `std::string` is a Lean `String`; a character of the Lean string stands for
  one `char` of the C++ string, `size()` is `String.length` and `empty()` is
  `length = 0`.
* `StringList` (`std::list<std::string>`) is `List String`.
* `UUIDMap` (`std::map<std::string, std::string>`) is given by its iteration
  sequence, a `List (String × String)` of (name, identifier) pairs.
* A `std::ofstream` is the text of the file it writes: `stream << x` is
  `stream ++ x`.  Opening without a mode truncates, opening with
  `std::ofstream::app` keeps the old text; the destructor stores the text back
  into the file system.
* `error(message)` ends the run: `Outcome.failed message fs`.
-/

namespace CreateProjectTool

/-! ## Data model -/

/-- The fields of `BuildSetup` (create_project.h) that cmake.cpp reads. -/
structure BuildSetup where
  projectName : String
  projectDescription : String
  srcDir : String
  filePrefix : String
  outputDir : String
  defines : List String
  libraries : List String

/-- The tree of files of a module: `name` and the ordered `children`;
a node without children stands for a file. -/
inductive FileNode where
  | mk (name : String) (children : List FileNode)

/-- The member `name` of a `FileNode`. -/
def FileNode.name : FileNode → String
  | .mk n _ => n

/-- The member `children` of a `FileNode`. -/
def FileNode.children : FileNode → List FileNode
  | .mk _ c => c

/-- The state a `CMakeProvider` inherits from `ProjectProvider`: the
constructor arguments and the registry `_uuidMap`, in iteration order. -/
structure CMakeProvider where
  _globalWarnings : List String
  _projectWarnings : List (String × List String)
  _version : Int
  _uuidMap : List (String × String)

/-- The part of the file system the provider touches: which paths can be
opened for writing, and the text stored under each path. -/
structure FileSystem where
  writable : String → Bool
  content : String → String

/-- How a provider operation ends: normally, by `error(message)`, or by an
uncaught C++ exception. The file system is the one left behind. -/
inductive Outcome where
  | done (fs : FileSystem)
  | failed (message : String) (fs : FileSystem)
  | thrown (what : String) (fs : FileSystem)

/-- The file system an operation leaves behind. -/
def Outcome.fs : Outcome → FileSystem
  | .done fs => fs
  | .failed _ fs => fs
  | .thrown _ fs => fs

/-- Modelled from the spec: error of create_project.cpp, which is not among
the sources. The failure is fatal: the run ends with the message, and no
later statement of the caller is executed. -/
def error (message : String) (fs : FileSystem) : Outcome :=
  .failed message fs

/-! ## Streams and strings -/

/-- Constructing `std::ofstream(path)`: fails when the path cannot be opened
for writing, otherwise starts from an empty (truncated) file. -/
def FileSystem.ofstream (fs : FileSystem) (path : String) : Option String :=
  if fs.writable path then some "" else none

/-- Constructing `std::ofstream(path, out | app)`: fails when the path cannot be
opened for writing, otherwise every write goes after the present text. -/
def FileSystem.ofstreamApp (fs : FileSystem) (path : String) : Option String :=
  if fs.writable path then some (fs.content path) else none

/-- Destroying the stream: the text becomes the content stored under `path`. -/
def FileSystem.close (fs : FileSystem) (path : String) (text : String) : FileSystem :=
  { fs with content := fun q => if q = path then text else fs.content q }

/-- Three-way comparison of two character sequences as `char_traits::compare`
followed by the comparison of the lengths. -/
def compareChars : List Char → List Char → Int
  | [], [] => 0
  | [], _ :: _ => -1
  | _ :: _, [] => 1
  | a :: as, b :: bs => if a < b then -1 else if b < a then 1 else compareChars as bs

/-- Operation `s.compare(pos, len, str)`: compares the substring of `s` that
starts at `pos` and has at most `len` characters with `str`; `none` is
`std::out_of_range`. -/
def compare (s : String) (pos len : Nat) (str : String) : Option Int :=
  if pos ≤ s.length then some (compareChars ((s.data.drop pos).take len) str.data) else none

/-- Operation `s.substr(pos)`: the rest of `s` from `pos`; `none` is `std::out_of_range`. -/
def substr (s : String) (pos : Nat) : Option String :=
  if pos ≤ s.length then some ⟨s.data.drop pos⟩ else none

/-- Operation `s.at(pos)`: the character at `pos`; `none` is `std::out_of_range`. -/
def at_ (s : String) (pos : Nat) : Option Char :=
  s.data.get? pos

/-- Operation `s.erase(pos, len)`: `s` without the `len` characters from
`pos`; `none` is `std::out_of_range`. -/
def erase (s : String) (pos len : Nat) : Option String :=
  if pos ≤ s.length then some ⟨s.data.take pos ++ s.data.drop (pos + len)⟩ else none

/-- The search of `find`: the first position, counted from `pos`, at which
`str` starts in the character sequence. -/
def findFrom (str : List Char) : List Char → Nat → Option Nat
  | [], pos => if str = [] then some pos else none
  | c :: cs, pos => if str <+: c :: cs then some pos else findFrom str cs (pos + 1)

/-- Operation `s.find(str)`: the position of the first occurrence of `str` in
`s`; `none` is `std::string::npos`. -/
def find (s str : String) : Option Nat :=
  findFrom str.data s.data 0

/-- Operation `s.replace(pos, len, str)`: `s` with the `len` characters from
`pos` replaced by `str`; `none` is `std::out_of_range`. -/
def replace (s : String) (pos len : Nat) (str : String) : Option String :=
  if pos ≤ s.length then some ⟨s.data.take pos ++ str.data ++ s.data.drop (pos + len)⟩ else none

/-- Modelled from the spec: the position of the last occurrence of `c` in `s`
(`std::string::find_last_of`), `none` when `c` does not occur; used by
splitFilename to find the last '.'. -/
def find_last_of (s : String) (c : Char) : Option Nat :=
  match s.data.reverse.indexOf? c with
  | none => none
  | some i => some (s.length - 1 - i)

/-- Modelled from the spec: splitFilename of create_project.cpp, which is not
among the sources. The extension is the text after the last '.' of the file
name and the name is the text before it; a file name without '.' has the
empty extension. Returns (name, ext). -/
def splitFilename (fileName : String) : String × String :=
  match find_last_of fileName '.' with
  | none => (fileName, "")
  | some dot => (⟨fileName.data.take dot⟩, ⟨fileName.data.drop (dot + 1)⟩)

/-! ## cmake.cpp -/

/-- Method `CMakeProvider::writeWarnings` (cmake.cpp 134-147). -/
def writeWarnings (p : CMakeProvider) (output : String) : String :=
  let output := output ++ "add_definitions(\n"
  let output := p._globalWarnings.foldl (fun output i => output ++ "\t" ++ i ++ "\n") output
  output ++ ")\n"

/-- Method `CMakeProvider::writeDefines` (cmake.cpp 149-155). -/
def writeDefines (defines : List String) (output : String) : String :=
  let output := output ++ "add_definitions(\n"
  let output := defines.foldl (fun output i => output ++ "\t-D" ++ i ++ "\n") output
  output ++ ")\n"

/-- Method `CMakeProvider::createWorkspace` (cmake.cpp 34-57). `LIBS_DEFINE` is the
macro of config.h, which is not among the sources. -/
def createWorkspace (p : CMakeProvider) (LIBS_DEFINE : String) (setup : BuildSetup)
    (fs : FileSystem) : Outcome :=
  let filename := setup.outputDir ++ "/CMakeLists.txt"
  match fs.ofstream filename with
  | none => error ("Could not open \"" ++ filename ++ "\" for writing") fs
  | some workspace =>
    let workspace := workspace ++ "cmake_minimum_required(VERSION 3.2)\n"
      ++ "project(" ++ setup.projectDescription ++ ")\n\n"
      ++ "Include(FindSDL)\n"
      ++ "Include(FindFreetype)\n"
      ++ "Include(FindZLIB)\n"
      ++ "Find_Package(SDL REQUIRED)\n"
      ++ "Find_Package(Freetype REQUIRED)\n"
      ++ "Find_Package(ZLIB REQUIRED)\n"
      ++ "include_directories($\x7b" ++ setup.projectDescription ++ "_SOURCE_DIR\x7d $\x7b"
      ++ setup.projectDescription ++ "_SOURCE_DIR\x7d/engines\n"
      ++ "$ENV\x7b" ++ LIBS_DEFINE ++ "\x7d/include\n"
      ++ "$\x7bSDL_INCLUDE_DIR\x7d\n"
      ++ "$\x7bFREETYPE_INCLUDE_DIRS\x7d\n"
      ++ "$\x7bZLIB_INCLUDE_DIRS\x7d\n"
      ++ ")\n\n"
    let workspace := writeWarnings p workspace
    let workspace := writeDefines setup.defines workspace
    .done (fs.close filename workspace)

/-- Function `processLibraryName` (cmake.cpp 62-78); `none` when a string
operation throws. -/
def processLibraryName (name : String) : Option String :=
  match find name "_static" with
  | some pos => replace name pos 7 ""
  | none =>
    match find name "-static" with
    | some pos => replace name pos 7 ""
    | none => if name = "zlib" then some "libz" else some name

/-- The computation of `modulePath` in `createProjectFile` (cmake.cpp 97-102):
the part of `moduleDir` after `srcDir` without its leading '/', or the empty
string when `moduleDir` does not start with `srcDir`; `none` when one of the
string operations throws. -/
def modulePath (moduleDir srcDir : String) : Option String :=
  match compare moduleDir 0 srcDir.length srcDir with
  | none => none
  | some c =>
    if c = 0 then
      match substr moduleDir srcDir.length with
      | none => none
      | some modulePath =>
        if modulePath.length ≠ 0 then
          match at_ modulePath 0 with
          | none => none
          | some c0 => if c0 = '/' then erase modulePath 0 1 else some modulePath
        else some modulePath
    else some ""

/-- Method `CMakeProvider::createProjectFile` (cmake.cpp 80-132). The second argument
(the identifier of the target) is unnamed in the source. `addFilesToProject`
is the method of the base class `ProjectProvider` (create_project.cpp, not
among the sources), given by the text it writes to the stream for
`(dir, includeList, excludeList, filePrefix)`. -/
def createProjectFile (p : CMakeProvider)
    (addFilesToProject : String → List String → List String → String → String)
    (name : String) (_uuid : String) (setup : BuildSetup) (moduleDir : String)
    (includeList excludeList : List String) (fs : FileSystem) : Outcome :=
  let projectFile := setup.outputDir ++ "/CMakeLists.txt"
  match fs.ofstreamApp projectFile with
  | none => error ("Could not open \"" ++ projectFile ++ "\" for writing") fs
  | some project =>
    let project :=
      if name = setup.projectName then project ++ "add_executable(" ++ name ++ "\n"
      else project ++ "add_library(" ++ name ++ "\n"
    match modulePath moduleDir setup.srcDir with
    | none => .thrown "std::out_of_range" fs
    | some modulePath =>
      let project :=
        if modulePath.length ≠ 0 then
          project ++ addFilesToProject moduleDir includeList excludeList
            (setup.filePrefix ++ "/" ++ modulePath)
        else
          project ++ addFilesToProject moduleDir includeList excludeList setup.filePrefix
      let project := project ++ ")\n"
      let project :=
        if name = setup.projectName then
          let project := project ++ "target_link_libraries(" ++ name ++ "\n"
          let project := project ++ "\t$\x7bSDL_LIBRARY\x7d\n"
          let project := project ++ "\t$\x7bFREETYPE_LIBRARIES\x7d\n"
          let project := project ++ "\t$\x7bZLIB_LIBRARIES\x7d\n"
          let project := project ++ "\tGL\n"
          let project := p._uuidMap.foldl
            (fun project i => if i.1 = setup.projectName then project else project ++ "\t" ++ i.1 ++ "\n")
            project
          project ++ ")\n"
        else project
      .done (fs.close projectFile project)

mutual
/-- Method `CMakeProvider::writeFileListToProject` (cmake.cpp 157-182). -/
def writeFileListToProject (dir : FileNode) (projectFile : String) (indentation : Int)
    (duplicate : List String) (objPrefix filePrefix : String) : String :=
  match dir with
  | .mk _ children =>
    writeFileListToProject.loop children projectFile indentation duplicate objPrefix filePrefix
/-- The loop over `dir.children` of `writeFileListToProject`. -/
def writeFileListToProject.loop (nodes : List FileNode) (projectFile : String) (indentation : Int)
    (duplicate : List String) (objPrefix filePrefix : String) : String :=
  match nodes with
  | [] => projectFile
  | .mk name children :: rest =>
    let projectFile :=
      if !children.isEmpty then
        writeFileListToProject (.mk name children) projectFile (indentation + 1) duplicate
          (objPrefix ++ name ++ "_") (filePrefix ++ name ++ "/")
      else
        let ext := (splitFilename name).2
        if ext = "rc" then projectFile
        else if ext = "asm" then projectFile
        else projectFile ++ "\t" ++ (filePrefix ++ name) ++ "\n"
    writeFileListToProject.loop rest projectFile indentation duplicate objPrefix filePrefix
end

/-- Method `CMakeProvider::writeReferences` (cmake.cpp 184-195). -/
def writeReferences (p : CMakeProvider) (setup : BuildSetup) (output : String) : String :=
  let output := output ++ "\t\t<Project filename=\"" ++ setup.projectName
    ++ ".cbp\" active=\"1\">\n"
  let output := p._uuidMap.foldl
    (fun output i =>
      if i.1 = " << PROJECT_NAME << " then output
      else output ++ "\t\t\t<Depends filename=\"" ++ i.1 ++ ".cbp\" />\n")
    output
  output ++ "\t\t</Project>\n"

/-- Method `CMakeProvider::getProjectExtension` (cmake.cpp 197-199). -/
def getProjectExtension : String :=
  ".txt"

/-! ## The driving loop -/

/-- The arguments of one call of `createProjectFile`: the name of the target,
its identifier, its module directory and its include and exclude lists. -/
structure Target where
  name : String
  uuid : String
  moduleDir : String
  includeList : List String
  excludeList : List String

/-- Modelled from the spec: the sequence of createProjectFile calls of the
driving loop (ProjectProvider::createProject of create_project.cpp, not among
the sources). The targets are added one after the other in the order of the
caller; the run ends at the first call that does not end normally. -/
def createProjectFiles (p : CMakeProvider)
    (addFilesToProject : String → List String → List String → String → String)
    (setup : BuildSetup) : List Target → FileSystem → Outcome
  | [], fs => .done fs
  | t :: ts, fs =>
    match createProjectFile p addFilesToProject t.name t.uuid setup t.moduleDir
        t.includeList t.excludeList fs with
    | .done fs1 => createProjectFiles p addFilesToProject setup ts fs1
    | o => o

/-- Modelled from the spec: one generation run of the driving loop
(ProjectProvider::createProject of create_project.cpp, not among the sources):
createWorkspace, then the createProjectFile calls. -/
def generate (p : CMakeProvider) (LIBS_DEFINE : String)
    (addFilesToProject : String → List String → List String → String → String)
    (setup : BuildSetup) (targets : List Target) (fs : FileSystem) : Outcome :=
  match createWorkspace p LIBS_DEFINE setup fs with
  | .done fs1 => createProjectFiles p addFilesToProject setup targets fs1
  | o => o

/-- A file system in which every path can be opened and every file is empty. -/
def emptyFileSystem : FileSystem :=
  { writable := fun _ => true, content := fun _ => "" }

/-- The declaration of a target: the text `createProjectFile` leaves in an
artifact that was empty before the call. -/
def declaration (p : CMakeProvider)
    (addFilesToProject : String → List String → List String → String → String)
    (setup : BuildSetup) (t : Target) : String :=
  (createProjectFile p addFilesToProject t.name t.uuid setup t.moduleDir
    t.includeList t.excludeList emptyFileSystem).fs.content (setup.outputDir ++ "/CMakeLists.txt")

/-! ## Specification-side definitions -/

mutual
/-- Specification: the leaves below `dir` in depth-first order following the
order of the children, each as (names of its ancestor directories below
`dir` from the outermost to the innermost, name of the leaf). -/
def leaves (dir : FileNode) : List (List String × String) :=
  match dir with
  | .mk _ children => leavesOfList children
/-- Specification: the leaves of a sequence of sibling nodes, see `leaves`. -/
def leavesOfList (nodes : List FileNode) : List (List String × String) :=
  match nodes with
  | [] => []
  | .mk name children :: rest =>
    (if children.isEmpty then [([], name)]
     else (leaves (.mk name children)).map (fun l => (name :: l.1, l.2)))
      ++ leavesOfList rest
end

/-- Specification: the extension of a leaf is "rc" or "asm". -/
def isResourceOrAssembly (leaf : String) : Bool :=
  (splitFilename leaf).2 = "rc" || (splitFilename leaf).2 = "asm"

/-- Specification: the line of a leaf: a tab, the file prefix, every ancestor
directory followed by '/', the name of the leaf, a newline. -/
def fileLine (filePrefix : String) (l : List String × String) : String :=
  "\t" ++ filePrefix ++ String.join (l.1.map (fun d => d ++ "/")) ++ l.2 ++ "\n"

/-- Specification: the header of the workspace: the minimum tool version, the
name of the project, and the global library and include declarations. -/
def workspaceHeader (projectDescription LIBS_DEFINE : String) : String :=
  "cmake_minimum_required(VERSION 3.2)\n"
    ++ "project(" ++ projectDescription ++ ")\n\n"
    ++ "Include(FindSDL)\n"
    ++ "Include(FindFreetype)\n"
    ++ "Include(FindZLIB)\n"
    ++ "Find_Package(SDL REQUIRED)\n"
    ++ "Find_Package(Freetype REQUIRED)\n"
    ++ "Find_Package(ZLIB REQUIRED)\n"
    ++ "include_directories($\x7b" ++ projectDescription ++ "_SOURCE_DIR\x7d $\x7b"
    ++ projectDescription ++ "_SOURCE_DIR\x7d/engines\n"
    ++ "$ENV\x7b" ++ LIBS_DEFINE ++ "\x7d/include\n"
    ++ "$\x7bSDL_INCLUDE_DIR\x7d\n"
    ++ "$\x7bFREETYPE_INCLUDE_DIRS\x7d\n"
    ++ "$\x7bZLIB_INCLUDE_DIRS\x7d\n"
    ++ ")\n\n"

/-! ## Sample inputs -/

/-- A sample configuration: the project "main" with the global define USE_ZLIB. -/
def demoSetup : BuildSetup :=
  { projectName := "main", projectDescription := "Demo", srcDir := "/src", filePrefix := "..",
    outputDir := "/out", defines := ["USE_ZLIB"], libraries := [] }

/-- A sample provider: the global warning -Wall and the registry of the
targets "enginelib" and "main", in the order of the map. -/
def demoProvider : CMakeProvider :=
  { _globalWarnings := ["-Wall"], _projectWarnings := [], _version := 0,
    _uuidMap := [("enginelib", "id2"), ("main", "id1")] }

/-- A sample file emission: one file under the prefix. -/
def demoAddFiles : String → List String → List String → String → String :=
  fun _ _ _ filePrefix => "\t" ++ filePrefix ++ "/a.cpp\n"

/-- A sample sequence of targets: the library, then the executable. -/
def demoTargets : List Target :=
  [{ name := "enginelib", uuid := "id2", moduleDir := "/src/engines/enginelib",
     includeList := [], excludeList := [] },
   { name := "main", uuid := "id1", moduleDir := "/src", includeList := [], excludeList := [] }]

/-- A file system in which no path can be opened for writing. -/
def readOnlyFileSystem : FileSystem :=
  { writable := fun _ => false, content := fun _ => "old" }

/-- A file system in which every path can be opened and holds an old text. -/
def staleFileSystem : FileSystem :=
  { writable := fun _ => true, content := fun _ => "old" }

/-! ## Auxiliary lemmas -/

theorem join_nil : String.join [] = "" := rfl

theorem join_cons (s : String) (ss : List String) :
    String.join (s :: ss) = s ++ String.join ss := by
  apply String.ext
  simp [String.join_eq]

theorem join_append (xs ys : List String) :
    String.join (xs ++ ys) = String.join xs ++ String.join ys := by
  apply String.ext
  simp [String.join_eq]

theorem foldl_append_eq {α : Type} (g : α → String) (l : List α) (out : String) :
    l.foldl (fun o i => o ++ g i) out = out ++ String.join (l.map g) := by
  induction l generalizing out with
  | nil => simp [join_nil]
  | cons a l ih => simp [ih, join_cons, String.append_assoc]

theorem fileLine_cons (filePrefix name : String) (l : List String × String) :
    fileLine filePrefix (name :: l.1, l.2) = fileLine (filePrefix ++ name ++ "/") l := by
  simp [fileLine, join_cons, String.append_assoc]

mutual
theorem writeFileListToProject_eq (dir : FileNode) (projectFile : String) (indentation : Int)
    (duplicate : List String) (objPrefix filePrefix : String) :
    writeFileListToProject dir projectFile indentation duplicate objPrefix filePrefix
      = projectFile ++ String.join
          (((leaves dir).filter (fun l => !isResourceOrAssembly l.2)).map (fileLine filePrefix)) := by
  match dir with
  | .mk _ children =>
    rw [writeFileListToProject, leaves]
    exact loop_eq children projectFile indentation duplicate objPrefix filePrefix
theorem loop_eq (nodes : List FileNode) (projectFile : String) (indentation : Int)
    (duplicate : List String) (objPrefix filePrefix : String) :
    writeFileListToProject.loop nodes projectFile indentation duplicate objPrefix filePrefix
      = projectFile ++ String.join
          (((leavesOfList nodes).filter (fun l => !isResourceOrAssembly l.2)).map
            (fileLine filePrefix)) := by
  match nodes with
  | [] => simp [writeFileListToProject.loop, leavesOfList, join_nil]
  | .mk name children :: rest =>
    rw [writeFileListToProject.loop, leavesOfList]
    simp only []
    rw [loop_eq rest]
    by_cases hc : children.isEmpty = true
    · simp only [hc, Bool.not_true, Bool.false_eq_true, if_false, if_true]
      by_cases h1 : (splitFilename name).2 = "rc"
      · simp [h1, isResourceOrAssembly]
      · by_cases h2 : (splitFilename name).2 = "asm"
        · simp [h2, isResourceOrAssembly]
        · simp [h1, h2, isResourceOrAssembly, join_cons, fileLine, join_nil, String.append_assoc]
    · simp only [hc, Bool.not_false, if_true, if_false]
      rw [writeFileListToProject_eq (.mk name children)]
      have hline : (fun x : List String × String => fileLine filePrefix (name :: x.1, x.2))
          = fileLine (filePrefix ++ name ++ "/") := funext (fileLine_cons filePrefix name)
      simp [List.filter_map, List.map_map, join_append, String.append_assoc, Function.comp_def,
        hline]
end
theorem compareChars_eq_zero (a b : List Char) : compareChars a b = 0 ↔ a = b := by
  induction a generalizing b with
  | nil => cases b <;> simp [compareChars]
  | cons x xs ih =>
    cases b with
    | nil => simp [compareChars]
    | cons y ys =>
      simp only [compareChars]
      by_cases h1 : x < y
      · have hne : x ≠ y := fun h => by subst h; exact absurd h1 (Char.lt_irrefl x)
        simp [h1, hne]
      · by_cases h2 : y < x
        · have hne : x ≠ y := fun h => by subst h; exact absurd h2 (Char.lt_irrefl x)
          simp [h1, h2, hne]
        · have hxy : x = y := Char.le_antisymm (Char.not_lt.mp h2) (Char.not_lt.mp h1)
          simp [h1, h2, hxy, ih]

theorem modulePath_total (moduleDir srcDir : String) :
    ∃ mp, modulePath moduleDir srcDir = some mp := by
  unfold modulePath compare
  simp only [Nat.zero_le, if_true, List.drop_zero]
  by_cases hc : compareChars (List.take srcDir.length moduleDir.data) srcDir.data = 0
  · simp only [hc, if_true]
    have hpre : List.take srcDir.length moduleDir.data = srcDir.data :=
      (compareChars_eq_zero _ _).mp hc
    have hlen : srcDir.length ≤ moduleDir.length := by
      have := congrArg List.length hpre
      simp only [List.length_take, String.length] at this ⊢
      omega
    simp only [substr, hlen, if_true]
    by_cases he : (List.drop srcDir.length moduleDir.data) = []
    · refine ⟨⟨List.drop srcDir.length moduleDir.data⟩, ?_⟩
      have h0 : (String.mk (List.drop srcDir.length moduleDir.data)).length = 0 := by
        rw [he]; rfl
      simp only [h0, ne_eq, not_true_eq_false, if_false]
    · obtain ⟨c, cs, hcs⟩ := List.exists_cons_of_ne_nil he
      have h0 : (String.mk (List.drop srcDir.length moduleDir.data)).length ≠ 0 := by
        rw [hcs]; show (c :: cs).length ≠ 0; simp
      simp only [h0, ne_eq, not_false_eq_true, if_true, at_, hcs, List.get?_cons_zero]
      by_cases hs : c = '/'
      · simp only [hs, if_true, erase, Nat.zero_le]
        exact ⟨_, rfl⟩
      · simp only [hs, if_false]
        exact ⟨_, rfl⟩
  · exact ⟨"", by simp [hc]⟩

theorem close_content_self (fs : FileSystem) (path text : String) :
    (fs.close path text).content path = text := by
  simp [FileSystem.close]

theorem close_writable (fs : FileSystem) (path text : String) :
    (fs.close path text).writable = fs.writable := rfl

theorem close_close (fs : FileSystem) (path text text2 : String) :
    (fs.close path text).close path text2 = fs.close path text2 := by
  simp only [FileSystem.close, FileSystem.mk.injEq, true_and]
  funext q
  by_cases h : q = path <;> simp [h]

theorem close_content_eq (fs : FileSystem) (path : String) :
    fs.close path (fs.content path) = fs := by
  cases fs with
  | mk w c =>
    simp only [FileSystem.close, FileSystem.mk.injEq, true_and]
    funext q
    by_cases h : q = path <;> simp [h]

theorem foldl_link_entries (projectName : String) (m : List (String × String)) (out : String) :
    m.foldl (fun project i =>
        if i.1 = projectName then project else project ++ "\t" ++ i.1 ++ "\n") out
      = out ++ String.join (((m.map Prod.fst).filter (fun n => n ≠ projectName)).map
          (fun n => "\t" ++ n ++ "\n")) := by
  induction m generalizing out with
  | nil => simp [join_nil]
  | cons a m ih =>
    by_cases h : a.1 = projectName
    · simp [ih, h]
    · rw [List.foldl_cons, if_neg h, ih]
      simp only [List.map_cons, List.filter_cons, ne_eq, h, not_false_eq_true, decide_True,
        if_true, join_cons, String.append_assoc]

theorem createProjectFile_executable (p : CMakeProvider)
    (addFilesToProject : String → List String → List String → String → String)
    (uuid : String) (setup : BuildSetup) (moduleDir : String)
    (includeList excludeList : List String) (fs : FileSystem) (mp : String)
    (hopen : fs.writable (setup.outputDir ++ "/CMakeLists.txt") = true)
    (hmp : modulePath moduleDir setup.srcDir = some mp) :
    createProjectFile p addFilesToProject setup.projectName uuid setup moduleDir
        includeList excludeList fs
      = .done (fs.close (setup.outputDir ++ "/CMakeLists.txt")
          (fs.content (setup.outputDir ++ "/CMakeLists.txt")
            ++ ("add_executable(" ++ setup.projectName ++ "\n"
            ++ addFilesToProject moduleDir includeList excludeList
                (if mp.length ≠ 0 then setup.filePrefix ++ "/" ++ mp else setup.filePrefix)
            ++ ")\n"
            ++ ("target_link_libraries(" ++ setup.projectName ++ "\n"
              ++ "\t$\x7bSDL_LIBRARY\x7d\n"
              ++ "\t$\x7bFREETYPE_LIBRARIES\x7d\n"
              ++ "\t$\x7bZLIB_LIBRARIES\x7d\n"
              ++ "\tGL\n"
              ++ String.join (((p._uuidMap.map Prod.fst).filter
                  (fun n => n ≠ setup.projectName)).map (fun n => "\t" ++ n ++ "\n"))
              ++ ")\n")))) := by
  simp only [createProjectFile, FileSystem.ofstreamApp, hopen, if_true, hmp, foldl_link_entries]
  by_cases hl : mp.length = 0
  · simp only [hl, ne_eq, not_true_eq_false, if_false, if_true, String.append_assoc]
  · simp only [hl, ne_eq, not_false_eq_true, if_false, if_true, String.append_assoc]

theorem createProjectFile_library (p : CMakeProvider)
    (addFilesToProject : String → List String → List String → String → String)
    (name uuid : String) (setup : BuildSetup) (moduleDir : String)
    (includeList excludeList : List String) (fs : FileSystem) (mp : String)
    (hopen : fs.writable (setup.outputDir ++ "/CMakeLists.txt") = true)
    (hmp : modulePath moduleDir setup.srcDir = some mp)
    (hname : name ≠ setup.projectName) :
    createProjectFile p addFilesToProject name uuid setup moduleDir
        includeList excludeList fs
      = .done (fs.close (setup.outputDir ++ "/CMakeLists.txt")
          (fs.content (setup.outputDir ++ "/CMakeLists.txt")
            ++ ("add_library(" ++ name ++ "\n"
            ++ addFilesToProject moduleDir includeList excludeList
                (if mp.length ≠ 0 then setup.filePrefix ++ "/" ++ mp else setup.filePrefix)
            ++ ")\n"))) := by
  simp only [createProjectFile, FileSystem.ofstreamApp, hopen, if_true, hmp, hname, if_false]
  by_cases hl : mp.length = 0
  · simp only [hl, ne_eq, not_true_eq_false, if_false, if_true, String.append_assoc]
  · simp only [hl, ne_eq, not_false_eq_true, if_false, if_true, String.append_assoc]

theorem createProjectFile_appends (p : CMakeProvider)
    (addFilesToProject : String → List String → List String → String → String)
    (name uuid : String) (setup : BuildSetup) (moduleDir : String)
    (includeList excludeList : List String) :
    ∃ text : String, ∀ fs : FileSystem,
      fs.writable (setup.outputDir ++ "/CMakeLists.txt") = true →
      createProjectFile p addFilesToProject name uuid setup moduleDir includeList excludeList fs
        = .done (fs.close (setup.outputDir ++ "/CMakeLists.txt")
            (fs.content (setup.outputDir ++ "/CMakeLists.txt") ++ text)) := by
  obtain ⟨mp, hmp⟩ := modulePath_total moduleDir setup.srcDir
  by_cases hname : name = setup.projectName
  · subst hname
    exact ⟨_, fun fs hopen => createProjectFile_executable p addFilesToProject uuid setup
      moduleDir includeList excludeList fs mp hopen hmp⟩
  · exact ⟨_, fun fs hopen => createProjectFile_library p addFilesToProject name uuid setup
      moduleDir includeList excludeList fs mp hopen hmp hname⟩

theorem createProjectFile_declaration (p : CMakeProvider)
    (addFilesToProject : String → List String → List String → String → String)
    (setup : BuildSetup) (t : Target) (fs : FileSystem)
    (hopen : fs.writable (setup.outputDir ++ "/CMakeLists.txt") = true) :
    createProjectFile p addFilesToProject t.name t.uuid setup t.moduleDir t.includeList
        t.excludeList fs
      = .done (fs.close (setup.outputDir ++ "/CMakeLists.txt")
          (fs.content (setup.outputDir ++ "/CMakeLists.txt")
            ++ declaration p addFilesToProject setup t)) := by
  obtain ⟨text, h⟩ := createProjectFile_appends p addFilesToProject t.name t.uuid setup
    t.moduleDir t.includeList t.excludeList
  have hd : declaration p addFilesToProject setup t = text := by
    unfold declaration
    rw [h emptyFileSystem rfl]
    simp [Outcome.fs, close_content_self, emptyFileSystem]
  rw [hd]
  exact h fs hopen

theorem createProjectFiles_declarations (p : CMakeProvider)
    (addFilesToProject : String → List String → List String → String → String)
    (setup : BuildSetup) (ts : List Target) (fs : FileSystem)
    (hopen : fs.writable (setup.outputDir ++ "/CMakeLists.txt") = true) :
    createProjectFiles p addFilesToProject setup ts fs
      = .done (fs.close (setup.outputDir ++ "/CMakeLists.txt")
          (fs.content (setup.outputDir ++ "/CMakeLists.txt")
            ++ String.join (ts.map (declaration p addFilesToProject setup)))) := by
  induction ts generalizing fs with
  | nil => simp [createProjectFiles, join_nil, close_content_eq]
  | cons t ts ih =>
    simp only [createProjectFiles, createProjectFile_declaration p addFilesToProject setup t fs hopen]
    rw [ih _ (by rw [close_writable]; exact hopen)]
    simp [close_close, close_content_self, join_cons, String.append_assoc]

theorem createWorkspace_writable (p : CMakeProvider) (LIBS_DEFINE : String) (setup : BuildSetup)
    (fs : FileSystem) (hopen : fs.writable (setup.outputDir ++ "/CMakeLists.txt") = true) :
    createWorkspace p LIBS_DEFINE setup fs
      = .done (fs.close (setup.outputDir ++ "/CMakeLists.txt")
          (writeDefines setup.defines (writeWarnings p
            (workspaceHeader setup.projectDescription LIBS_DEFINE)))) := by
  simp only [createWorkspace, FileSystem.ofstream, hopen, if_true, workspaceHeader]
  rw [String.empty_append]

theorem writeDefines_eq (defines : List String) (output : String) :
    writeDefines defines output
      = output ++ ("add_definitions(\n"
          ++ String.join (defines.map (fun d => "\t" ++ "-D" ++ d ++ "\n")) ++ ")\n") := by
  have h := foldl_append_eq (fun d => "\t-D" ++ d ++ "\n") defines (output ++ "add_definitions(\n")
  simp only [← String.append_assoc] at h
  simp only [writeDefines, h]
  have hf : (fun d : String => "\t" ++ "-D" ++ d ++ "\n") = (fun d => "\t-D" ++ d ++ "\n") := by
    funext d; rfl
  simp [String.append_assoc, hf]

theorem writeWarnings_eq (p : CMakeProvider) (output : String) :
    writeWarnings p output
      = output ++ ("add_definitions(\n"
          ++ String.join (p._globalWarnings.map (fun w => "\t" ++ w ++ "\n")) ++ ")\n") := by
  have h := foldl_append_eq (fun w => "\t" ++ w ++ "\n") p._globalWarnings
    (output ++ "add_definitions(\n")
  simp only [← String.append_assoc] at h
  simp only [writeWarnings, h]
  simp [String.append_assoc]

theorem join_map_ite (keep : List String × String → Bool) (line : List String × String → String)
    (ls : List (List String × String)) :
    String.join (ls.map (fun l => if keep l = true then line l else ""))
      = String.join ((ls.filter keep).map line) := by
  induction ls with
  | nil => rfl
  | cons l ls ih =>
    by_cases h : keep l = true
    · simp only [List.map_cons, List.filter_cons, h, if_true, join_cons, ih]
    · simp only [List.map_cons, List.filter_cons, h, if_false, join_cons, ih,
        String.empty_append, Bool.false_eq_true]

theorem library_ne_executable (c a b : String) :
    c ++ ("add_library(" ++ a) ≠ c ++ ("add_executable(" ++ b) := by
  intro h
  have hd := congrArg String.data h
  simp only [String.data_append, List.append_cancel_left_eq] at hd
  simp at hd

theorem done_close_inj (fs : FileSystem) (path a b : String)
    (h : Outcome.done (fs.close path a) = Outcome.done (fs.close path b)) : a = b := by
  have h1 : fs.close path a = fs.close path b := Outcome.done.inj h
  have h2 := congrArg (fun f : FileSystem => f.content path) h1
  simpa [close_content_self] using h2

theorem generate_writable (p : CMakeProvider) (LIBS_DEFINE : String)
    (addFilesToProject : String → List String → List String → String → String)
    (setup : BuildSetup) (targets : List Target) :
    ∃ text : String, ∀ fs : FileSystem,
      fs.writable (setup.outputDir ++ "/CMakeLists.txt") = true →
      generate p LIBS_DEFINE addFilesToProject setup targets fs
        = .done (fs.close (setup.outputDir ++ "/CMakeLists.txt") text) := by
  refine ⟨writeDefines setup.defines (writeWarnings p
      (workspaceHeader setup.projectDescription LIBS_DEFINE))
    ++ String.join (targets.map (declaration p addFilesToProject setup)), fun fs hopen => ?_⟩
  simp only [generate, createWorkspace_writable p LIBS_DEFINE setup fs hopen]
  rw [createProjectFiles_declarations p addFilesToProject setup targets _
    (by rw [close_writable]; exact hopen)]
  rw [close_close, close_content_self]

/-! ## Emission drivers -/

/-- C6: writeDefines writes "add_definitions(", then for each define of the
input list, in the order of the list, the line tab "-D" define newline, then
the closing line; there are as many entry lines as defines. -/
theorem writeDefines_entries (defines : List String) (output : String) :
    writeDefines defines output
        = output ++ "add_definitions(\n"
          ++ String.join (defines.map (fun d => "\t" ++ "-D" ++ d ++ "\n")) ++ ")\n"
      ∧ (defines.map (fun d => "\t" ++ "-D" ++ d ++ "\n")).length = defines.length := by
  refine ⟨?_, List.length_map _ _⟩
  rw [writeDefines_eq]
  simp only [String.append_assoc]

/-- C7: writeWarnings writes "add_definitions(", then for each global warning,
in the order of _globalWarnings, the line tab warning newline, then the
closing line; there are as many entry lines as warnings. -/
theorem writeWarnings_entries (p : CMakeProvider) (output : String) :
    writeWarnings p output
        = output ++ "add_definitions(\n"
          ++ String.join (p._globalWarnings.map (fun w => "\t" ++ w ++ "\n")) ++ ")\n"
      ∧ (p._globalWarnings.map (fun w => "\t" ++ w ++ "\n")).length
          = p._globalWarnings.length := by
  refine ⟨?_, List.length_map _ _⟩
  rw [writeWarnings_eq]
  simp only [String.append_assoc]

/-! ## Workspace -/

/-- C5: when the artifact can be opened, createWorkspace leaves in it the
header (minimum tool version, project name, library and include
declarations), then the block of writeWarnings, then the block of
writeDefines for setup.defines; with the global warning -Wall and the global
define USE_ZLIB the blocks hold the entries "-Wall" and "-DUSE_ZLIB". -/
theorem createWorkspace_header (p : CMakeProvider) (LIBS_DEFINE : String) (setup : BuildSetup)
    (fs : FileSystem) (hopen : fs.writable (setup.outputDir ++ "/CMakeLists.txt") = true) :
    createWorkspace p LIBS_DEFINE setup fs
        = .done (fs.close (setup.outputDir ++ "/CMakeLists.txt")
            (workspaceHeader setup.projectDescription LIBS_DEFINE
              ++ writeWarnings p "" ++ writeDefines setup.defines ""))
      ∧ createWorkspace { p with _globalWarnings := ["-Wall"] } LIBS_DEFINE
          { setup with defines := ["USE_ZLIB"] } fs
        = .done (fs.close (setup.outputDir ++ "/CMakeLists.txt")
            (workspaceHeader setup.projectDescription LIBS_DEFINE
              ++ ("add_definitions(\n" ++ "\t-Wall\n" ++ ")\n")
              ++ ("add_definitions(\n" ++ "\t-DUSE_ZLIB\n" ++ ")\n"))) := by
  constructor
  · rw [createWorkspace_writable p LIBS_DEFINE setup fs hopen]
    rw [writeDefines_eq, writeWarnings_eq, writeDefines_eq, writeWarnings_eq]
    simp only [String.empty_append, String.append_assoc]
  · rw [createWorkspace_writable { p with _globalWarnings := ["-Wall"] } LIBS_DEFINE
      { setup with defines := ["USE_ZLIB"] } fs hopen]
    rw [writeDefines_eq, writeWarnings_eq]
    simp only [List.map_cons, List.map_nil, join_cons, join_nil, String.append_empty,
      String.append_assoc]
    rfl

/-- Witness of C5 on the sample configuration and the empty file system. -/
theorem createWorkspace_header_witness :
    emptyFileSystem.writable (demoSetup.outputDir ++ "/CMakeLists.txt") = true
      ∧ (createWorkspace demoProvider "SCUMMVM_LIBS" demoSetup emptyFileSystem
          = .done (emptyFileSystem.close (demoSetup.outputDir ++ "/CMakeLists.txt")
              (workspaceHeader demoSetup.projectDescription "SCUMMVM_LIBS"
                ++ writeWarnings demoProvider "" ++ writeDefines demoSetup.defines ""))
        ∧ createWorkspace { demoProvider with _globalWarnings := ["-Wall"] } "SCUMMVM_LIBS"
            { demoSetup with defines := ["USE_ZLIB"] } emptyFileSystem
          = .done (emptyFileSystem.close (demoSetup.outputDir ++ "/CMakeLists.txt")
              (workspaceHeader demoSetup.projectDescription "SCUMMVM_LIBS"
                ++ ("add_definitions(\n" ++ "\t-Wall\n" ++ ")\n")
                ++ ("add_definitions(\n" ++ "\t-DUSE_ZLIB\n" ++ ")\n")))) :=
  ⟨rfl, createWorkspace_header demoProvider "SCUMMVM_LIBS" demoSetup emptyFileSystem rfl⟩

/-- C10: when the artifact cannot be opened for writing, createWorkspace and
createProjectFile both end with the error "Could not open <path> for
writing" naming the path of the artifact, and leave the file system as it
was; when it can be opened, both end normally. -/
theorem open_failure_is_reported (p : CMakeProvider) (LIBS_DEFINE : String)
    (addFilesToProject : String → List String → List String → String → String)
    (name uuid : String) (setup : BuildSetup) (moduleDir : String)
    (includeList excludeList : List String) (fs : FileSystem) :
    (fs.writable (setup.outputDir ++ "/CMakeLists.txt") = false →
        createWorkspace p LIBS_DEFINE setup fs
          = error ("Could not open \"" ++ (setup.outputDir ++ "/CMakeLists.txt")
              ++ "\" for writing") fs
        ∧ createProjectFile p addFilesToProject name uuid setup moduleDir includeList
            excludeList fs
          = error ("Could not open \"" ++ (setup.outputDir ++ "/CMakeLists.txt")
              ++ "\" for writing") fs)
      ∧ (fs.writable (setup.outputDir ++ "/CMakeLists.txt") = true →
        (∃ fs1, createWorkspace p LIBS_DEFINE setup fs = .done fs1)
        ∧ ∃ fs1, createProjectFile p addFilesToProject name uuid setup moduleDir includeList
            excludeList fs = .done fs1) := by
  constructor
  · intro h
    simp [createWorkspace, createProjectFile, FileSystem.ofstream, FileSystem.ofstreamApp, h]
  · intro h
    obtain ⟨text, ht⟩ := createProjectFile_appends p addFilesToProject name uuid setup moduleDir
      includeList excludeList
    exact ⟨⟨_, createWorkspace_writable p LIBS_DEFINE setup fs h⟩, ⟨_, ht fs h⟩⟩

/-- Witness of C10 on the read-only file system: both operations report the
path "/out/CMakeLists.txt" and leave the old text. -/
theorem open_failure_is_reported_witness :
    createWorkspace demoProvider "SCUMMVM_LIBS" demoSetup readOnlyFileSystem
        = error "Could not open \"/out/CMakeLists.txt\" for writing" readOnlyFileSystem
      ∧ createProjectFile demoProvider demoAddFiles "main" "id1" demoSetup "/src" [] []
          readOnlyFileSystem
        = error "Could not open \"/out/CMakeLists.txt\" for writing" readOnlyFileSystem :=
  (open_failure_is_reported demoProvider "SCUMMVM_LIBS" demoAddFiles "main" "id1" demoSetup
    "/src" [] [] readOnlyFileSystem).1 rfl

/-! ## File list -/

/-- C3: the text writeFileListToProject adds is one line per listed leaf, in
depth-first order following the order of the children; the line of a leaf is
a tab, the file prefix, the names of the ancestor directories of the leaf
below the root from the outermost to the innermost, each followed by '/',
the name of the leaf, and a newline. -/
theorem writeFileListToProject_paths (dir : FileNode) (projectFile : String) (indentation : Int)
    (duplicate : List String) (objPrefix filePrefix : String) :
    writeFileListToProject dir projectFile indentation duplicate objPrefix filePrefix
      = projectFile ++ String.join
          (((leaves dir).filter (fun l => !isResourceOrAssembly l.2)).map
            (fun l => "\t" ++ filePrefix ++ String.join (l.1.map (fun d => d ++ "/"))
              ++ l.2 ++ "\n")) :=
  writeFileListToProject_eq dir projectFile indentation duplicate objPrefix filePrefix

/-- C4: writeFileListToProject adds, for the leaves in depth-first order,
exactly one line for a leaf whose extension is neither "rc" nor "asm" and
nothing for a leaf whose extension is "rc" or "asm"; for a module with the
leaves a.cpp, b.cpp and icon.rc it adds the line of a.cpp and the line of
b.cpp and nothing else. -/
theorem writeFileListToProject_extensions (dir : FileNode) (projectFile : String)
    (indentation : Int) (duplicate : List String) (objPrefix filePrefix root : String) :
    writeFileListToProject dir projectFile indentation duplicate objPrefix filePrefix
        = projectFile ++ String.join ((leaves dir).map (fun l =>
            if (splitFilename l.2).2 = "rc" ∨ (splitFilename l.2).2 = "asm" then ""
            else fileLine filePrefix l))
      ∧ writeFileListToProject
          (.mk root [.mk "a.cpp" [], .mk "b.cpp" [], .mk "icon.rc" []])
          projectFile indentation duplicate objPrefix filePrefix
        = projectFile ++ ("\t" ++ filePrefix ++ "a.cpp" ++ "\n")
            ++ ("\t" ++ filePrefix ++ "b.cpp" ++ "\n") := by
  constructor
  · rw [writeFileListToProject_eq, ← join_map_ite]
    congr 2
    apply List.map_congr_left
    intro l _
    by_cases h1 : (splitFilename l.2).2 = "rc"
    · simp [h1, isResourceOrAssembly]
    · by_cases h2 : (splitFilename l.2).2 = "asm"
      · simp [h2, isResourceOrAssembly]
      · simp [h1, h2, isResourceOrAssembly]
  · rw [writeFileListToProject_eq]
    have hl : (leavesOfList [.mk "a.cpp" [], .mk "b.cpp" [], .mk "icon.rc" []]).filter
        (fun l => !isResourceOrAssembly l.2) = [([], "a.cpp"), ([], "b.cpp")] := by
      decide
    rw [leaves, hl]
    simp only [List.map_cons, List.map_nil, join_cons, join_nil, fileLine, String.append_empty,
      String.append_assoc, String.empty_append]

/-! ## Targets -/

/-- C1: for the executable target (name = setup.projectName) and a registry
with one entry per name, the text createProjectFile adds ends with the
target_link_libraries block, whose entries after the four fixed libraries
are the lines tab name newline of the registered names other than
setup.projectName, in the order of the registry: one line for every such
name and none for setup.projectName. -/
theorem createProjectFile_link_block (p : CMakeProvider)
    (addFilesToProject : String → List String → List String → String → String)
    (uuid : String) (setup : BuildSetup) (moduleDir : String)
    (includeList excludeList : List String) (fs : FileSystem)
    (hopen : fs.writable (setup.outputDir ++ "/CMakeLists.txt") = true)
    (hmap : (p._uuidMap.map Prod.fst).Nodup) :
    ∃ (files : String) (entries : List String),
      entries = (p._uuidMap.map Prod.fst).filter (fun n => n ≠ setup.projectName)
      ∧ createProjectFile p addFilesToProject setup.projectName uuid setup moduleDir
          includeList excludeList fs
        = .done (fs.close (setup.outputDir ++ "/CMakeLists.txt")
            (fs.content (setup.outputDir ++ "/CMakeLists.txt")
              ++ ("add_executable(" ++ setup.projectName ++ "\n" ++ files ++ ")\n")
              ++ ("target_link_libraries(" ++ setup.projectName ++ "\n"
                ++ "\t$\x7bSDL_LIBRARY\x7d\n"
                ++ "\t$\x7bFREETYPE_LIBRARIES\x7d\n"
                ++ "\t$\x7bZLIB_LIBRARIES\x7d\n"
                ++ "\tGL\n"
                ++ String.join (entries.map (fun n => "\t" ++ n ++ "\n"))
                ++ ")\n")))
      ∧ (∀ n, n ∈ p._uuidMap.map Prod.fst → n ≠ setup.projectName → entries.count n = 1)
      ∧ entries.count setup.projectName = 0 := by
  obtain ⟨mp, hmp⟩ := modulePath_total moduleDir setup.srcDir
  refine ⟨(addFilesToProject moduleDir includeList excludeList
      (if mp.length ≠ 0 then setup.filePrefix ++ "/" ++ mp else setup.filePrefix)), _, rfl, ?_, ?_, ?_⟩
  · rw [createProjectFile_executable p addFilesToProject uuid setup moduleDir includeList
      excludeList fs mp hopen hmp]
    simp only [String.append_assoc]
  · intro n hn hne
    rw [List.count_filter (by simpa using hne)]
    exact List.count_eq_one_of_mem hmap hn
  · rw [List.count_eq_zero]
    simp [List.mem_filter]

/-- Witness of C1 on the sample provider, whose registry holds "enginelib"
and "main". -/
theorem createProjectFile_link_block_witness :
    emptyFileSystem.writable (demoSetup.outputDir ++ "/CMakeLists.txt") = true
      ∧ (demoProvider._uuidMap.map Prod.fst).Nodup
      ∧ ∃ (files : String) (entries : List String),
        entries = (demoProvider._uuidMap.map Prod.fst).filter
            (fun n => n ≠ demoSetup.projectName)
        ∧ createProjectFile demoProvider demoAddFiles demoSetup.projectName "id1" demoSetup
            "/src" [] [] emptyFileSystem
          = .done (emptyFileSystem.close (demoSetup.outputDir ++ "/CMakeLists.txt")
              (emptyFileSystem.content (demoSetup.outputDir ++ "/CMakeLists.txt")
                ++ ("add_executable(" ++ demoSetup.projectName ++ "\n" ++ files ++ ")\n")
                ++ ("target_link_libraries(" ++ demoSetup.projectName ++ "\n"
                  ++ "\t$\x7bSDL_LIBRARY\x7d\n"
                  ++ "\t$\x7bFREETYPE_LIBRARIES\x7d\n"
                  ++ "\t$\x7bZLIB_LIBRARIES\x7d\n"
                  ++ "\tGL\n"
                  ++ String.join (entries.map (fun n => "\t" ++ n ++ "\n"))
                  ++ ")\n")))
        ∧ (∀ n, n ∈ demoProvider._uuidMap.map Prod.fst → n ≠ demoSetup.projectName →
            entries.count n = 1)
        ∧ entries.count demoSetup.projectName = 0 :=
  ⟨rfl, by decide,
    createProjectFile_link_block demoProvider demoAddFiles "id1" demoSetup "/src" [] []
      emptyFileSystem rfl (by decide)⟩

/-- C2: with mp the module path of the target, createProjectFile adds, when
name is setup.projectName, exactly the declaration "add_executable(" name,
the file list and the closing line, followed by the target_link_libraries
block of name; for every other name it adds exactly the declaration
"add_library(" name, the file list and the closing line, and nothing else,
so that no target_link_libraries block is written and the outcome is the
same for every registry. The text has the add_executable form followed by a
target_link_libraries block if and only if name is setup.projectName. -/
theorem createProjectFile_target_kind (p : CMakeProvider)
    (addFilesToProject : String → List String → List String → String → String)
    (name uuid : String) (setup : BuildSetup) (moduleDir : String)
    (includeList excludeList : List String) (fs : FileSystem)
    (hopen : fs.writable (setup.outputDir ++ "/CMakeLists.txt") = true) :
    ∃ mp : String, modulePath moduleDir setup.srcDir = some mp
      ∧ (name = setup.projectName →
        createProjectFile p addFilesToProject name uuid setup moduleDir includeList
            excludeList fs
          = .done (fs.close (setup.outputDir ++ "/CMakeLists.txt")
              (fs.content (setup.outputDir ++ "/CMakeLists.txt")
                ++ ("add_executable(" ++ name ++ "\n"
                  ++ addFilesToProject moduleDir includeList excludeList
                      (if mp.length ≠ 0 then setup.filePrefix ++ "/" ++ mp
                       else setup.filePrefix)
                  ++ ")\n")
                ++ ("target_link_libraries(" ++ name ++ "\n"
                  ++ "\t$\x7bSDL_LIBRARY\x7d\n"
                  ++ "\t$\x7bFREETYPE_LIBRARIES\x7d\n"
                  ++ "\t$\x7bZLIB_LIBRARIES\x7d\n"
                  ++ "\tGL\n"
                  ++ String.join (((p._uuidMap.map Prod.fst).filter
                      (fun n => n ≠ setup.projectName)).map (fun n => "\t" ++ n ++ "\n"))
                  ++ ")\n"))))
      ∧ (name ≠ setup.projectName →
        createProjectFile p addFilesToProject name uuid setup moduleDir includeList
            excludeList fs
          = .done (fs.close (setup.outputDir ++ "/CMakeLists.txt")
              (fs.content (setup.outputDir ++ "/CMakeLists.txt")
                ++ ("add_library(" ++ name ++ "\n"
                  ++ addFilesToProject moduleDir includeList excludeList
                      (if mp.length ≠ 0 then setup.filePrefix ++ "/" ++ mp
                       else setup.filePrefix)
                  ++ ")\n")))
        ∧ ∀ registry : List (String × String),
          createProjectFile { p with _uuidMap := registry } addFilesToProject name uuid setup
              moduleDir includeList excludeList fs
            = createProjectFile p addFilesToProject name uuid setup moduleDir includeList
                excludeList fs)
      ∧ ((∃ files entries : String,
          createProjectFile p addFilesToProject name uuid setup moduleDir includeList
              excludeList fs
            = .done (fs.close (setup.outputDir ++ "/CMakeLists.txt")
                (fs.content (setup.outputDir ++ "/CMakeLists.txt")
                  ++ ("add_executable(" ++ name ++ "\n" ++ files ++ ")\n")
                  ++ ("target_link_libraries(" ++ name ++ "\n" ++ entries ++ ")\n"))))
          ↔ name = setup.projectName) := by
  obtain ⟨mp, hmp⟩ := modulePath_total moduleDir setup.srcDir
  have hexe : name = setup.projectName →
      createProjectFile p addFilesToProject name uuid setup moduleDir includeList
          excludeList fs
        = .done (fs.close (setup.outputDir ++ "/CMakeLists.txt")
            (fs.content (setup.outputDir ++ "/CMakeLists.txt")
              ++ ("add_executable(" ++ name ++ "\n"
                ++ addFilesToProject moduleDir includeList excludeList
                    (if mp.length ≠ 0 then setup.filePrefix ++ "/" ++ mp
                     else setup.filePrefix)
                ++ ")\n")
              ++ ("target_link_libraries(" ++ name ++ "\n"
                ++ "\t$\x7bSDL_LIBRARY\x7d\n"
                ++ "\t$\x7bFREETYPE_LIBRARIES\x7d\n"
                ++ "\t$\x7bZLIB_LIBRARIES\x7d\n"
                ++ "\tGL\n"
                ++ String.join (((p._uuidMap.map Prod.fst).filter
                    (fun n => n ≠ setup.projectName)).map (fun n => "\t" ++ n ++ "\n"))
                ++ ")\n"))) := by
    intro hname
    subst hname
    rw [createProjectFile_executable p addFilesToProject uuid setup moduleDir includeList
      excludeList fs mp hopen hmp]
    simp only [String.append_assoc]
  refine ⟨mp, hmp, hexe, ?_, ⟨?_, ?_⟩⟩
  · intro hname
    refine ⟨?_, fun registry => ?_⟩
    · rw [createProjectFile_library p addFilesToProject name uuid setup moduleDir includeList
        excludeList fs mp hopen hmp hname]
    · rw [createProjectFile_library p addFilesToProject name uuid setup moduleDir includeList
        excludeList fs mp hopen hmp hname,
        createProjectFile_library { p with _uuidMap := registry } addFilesToProject name uuid
          setup moduleDir includeList excludeList fs mp hopen hmp hname]
  · rintro ⟨files, entries, h⟩
    by_contra hname
    rw [createProjectFile_library p addFilesToProject name uuid setup moduleDir includeList
      excludeList fs mp hopen hmp hname] at h
    have h2 := done_close_inj _ _ _ _ h
    simp only [String.append_assoc] at h2
    exact library_ne_executable _ _ _ h2
  · intro hname
    refine ⟨addFilesToProject moduleDir includeList excludeList
      (if mp.length ≠ 0 then setup.filePrefix ++ "/" ++ mp else setup.filePrefix),
      "\t$\x7bSDL_LIBRARY\x7d\n" ++ "\t$\x7bFREETYPE_LIBRARIES\x7d\n"
        ++ "\t$\x7bZLIB_LIBRARIES\x7d\n" ++ "\tGL\n"
        ++ String.join (((p._uuidMap.map Prod.fst).filter
            (fun n => n ≠ setup.projectName)).map (fun n => "\t" ++ n ++ "\n")), ?_⟩
    rw [hexe hname]
    simp only [String.append_assoc]

/-- Witness of C2 on the library target "enginelib" of the sample project. -/
theorem createProjectFile_target_kind_witness :
    emptyFileSystem.writable (demoSetup.outputDir ++ "/CMakeLists.txt") = true
      ∧ ∃ mp : String, modulePath "/src/engines/enginelib" demoSetup.srcDir = some mp
        ∧ ("enginelib" = demoSetup.projectName →
          createProjectFile demoProvider demoAddFiles "enginelib" "id2" demoSetup
              "/src/engines/enginelib" [] [] emptyFileSystem
            = .done (emptyFileSystem.close (demoSetup.outputDir ++ "/CMakeLists.txt")
                (emptyFileSystem.content (demoSetup.outputDir ++ "/CMakeLists.txt")
                  ++ ("add_executable(" ++ "enginelib" ++ "\n"
                    ++ demoAddFiles "/src/engines/enginelib" [] []
                        (if mp.length ≠ 0 then demoSetup.filePrefix ++ "/" ++ mp
                         else demoSetup.filePrefix)
                    ++ ")\n")
                  ++ ("target_link_libraries(" ++ "enginelib" ++ "\n"
                    ++ "\t$\x7bSDL_LIBRARY\x7d\n"
                    ++ "\t$\x7bFREETYPE_LIBRARIES\x7d\n"
                    ++ "\t$\x7bZLIB_LIBRARIES\x7d\n"
                    ++ "\tGL\n"
                    ++ String.join (((demoProvider._uuidMap.map Prod.fst).filter
                        (fun n => n ≠ demoSetup.projectName)).map (fun n => "\t" ++ n ++ "\n"))
                    ++ ")\n"))))
        ∧ ("enginelib" ≠ demoSetup.projectName →
          createProjectFile demoProvider demoAddFiles "enginelib" "id2" demoSetup
              "/src/engines/enginelib" [] [] emptyFileSystem
            = .done (emptyFileSystem.close (demoSetup.outputDir ++ "/CMakeLists.txt")
                (emptyFileSystem.content (demoSetup.outputDir ++ "/CMakeLists.txt")
                  ++ ("add_library(" ++ "enginelib" ++ "\n"
                    ++ demoAddFiles "/src/engines/enginelib" [] []
                        (if mp.length ≠ 0 then demoSetup.filePrefix ++ "/" ++ mp
                         else demoSetup.filePrefix)
                    ++ ")\n")))
          ∧ ∀ registry : List (String × String),
            createProjectFile { demoProvider with _uuidMap := registry } demoAddFiles
                "enginelib" "id2" demoSetup "/src/engines/enginelib" [] [] emptyFileSystem
              = createProjectFile demoProvider demoAddFiles "enginelib" "id2" demoSetup
                  "/src/engines/enginelib" [] [] emptyFileSystem)
        ∧ ((∃ files entries : String,
            createProjectFile demoProvider demoAddFiles "enginelib" "id2" demoSetup
                "/src/engines/enginelib" [] [] emptyFileSystem
              = .done (emptyFileSystem.close (demoSetup.outputDir ++ "/CMakeLists.txt")
                  (emptyFileSystem.content (demoSetup.outputDir ++ "/CMakeLists.txt")
                    ++ ("add_executable(" ++ "enginelib" ++ "\n" ++ files ++ ")\n")
                    ++ ("target_link_libraries(" ++ "enginelib" ++ "\n" ++ entries ++ ")\n"))))
            ↔ "enginelib" = demoSetup.projectName) :=
  ⟨rfl, createProjectFile_target_kind demoProvider demoAddFiles "enginelib" "id2" demoSetup
    "/src/engines/enginelib" [] [] emptyFileSystem rfl⟩

/-- C8: a successful createProjectFile call leaves the prior content of the
artifact in place and puts the declaration of the target after it; a
sequence of calls leaves the prior content followed by the declarations of
the targets in the order of the calls. -/
theorem createProjectFile_accumulates (p : CMakeProvider)
    (addFilesToProject : String → List String → List String → String → String)
    (setup : BuildSetup) (t : Target) (ts : List Target) (fs : FileSystem)
    (hopen : fs.writable (setup.outputDir ++ "/CMakeLists.txt") = true) :
    createProjectFile p addFilesToProject t.name t.uuid setup t.moduleDir t.includeList
          t.excludeList fs
        = .done (fs.close (setup.outputDir ++ "/CMakeLists.txt")
            (fs.content (setup.outputDir ++ "/CMakeLists.txt")
              ++ declaration p addFilesToProject setup t))
      ∧ createProjectFiles p addFilesToProject setup ts fs
        = .done (fs.close (setup.outputDir ++ "/CMakeLists.txt")
            (fs.content (setup.outputDir ++ "/CMakeLists.txt")
              ++ String.join (ts.map (declaration p addFilesToProject setup)))) :=
  ⟨createProjectFile_declaration p addFilesToProject setup t fs hopen,
    createProjectFiles_declarations p addFilesToProject setup ts fs hopen⟩

/-- Witness of C8 on the sample targets and an artifact that holds "old". -/
theorem createProjectFile_accumulates_witness :
    staleFileSystem.writable (demoSetup.outputDir ++ "/CMakeLists.txt") = true
      ∧ createProjectFile demoProvider demoAddFiles "main" "id1" demoSetup "/src" [] []
            staleFileSystem
          = .done (staleFileSystem.close (demoSetup.outputDir ++ "/CMakeLists.txt")
              (staleFileSystem.content (demoSetup.outputDir ++ "/CMakeLists.txt")
                ++ declaration demoProvider demoAddFiles demoSetup
                    { name := "main", uuid := "id1", moduleDir := "/src", includeList := [],
                      excludeList := [] }))
      ∧ createProjectFiles demoProvider demoAddFiles demoSetup demoTargets staleFileSystem
          = .done (staleFileSystem.close (demoSetup.outputDir ++ "/CMakeLists.txt")
              (staleFileSystem.content (demoSetup.outputDir ++ "/CMakeLists.txt")
                ++ String.join (demoTargets.map (declaration demoProvider demoAddFiles demoSetup)))) :=
  ⟨rfl, createProjectFile_accumulates demoProvider demoAddFiles demoSetup
    { name := "main", uuid := "id1", moduleDir := "/src", includeList := [], excludeList := [] }
    demoTargets staleFileSystem rfl⟩

/-- C9: a generation run (createWorkspace, then the createProjectFile calls)
on an artifact that can be opened ends normally and leaves the same content
in the artifact whatever the artifact held before; a second run with the
same inputs on the result of the first leaves the file system as it is. -/
theorem generate_idempotent (p : CMakeProvider) (LIBS_DEFINE : String)
    (addFilesToProject : String → List String → List String → String → String)
    (setup : BuildSetup) (targets : List Target) (fs1 fs2 : FileSystem)
    (hopen1 : fs1.writable (setup.outputDir ++ "/CMakeLists.txt") = true)
    (hopen2 : fs2.writable (setup.outputDir ++ "/CMakeLists.txt") = true) :
    ∃ out1 out2 : FileSystem,
      generate p LIBS_DEFINE addFilesToProject setup targets fs1 = .done out1
      ∧ generate p LIBS_DEFINE addFilesToProject setup targets fs2 = .done out2
      ∧ out1.content (setup.outputDir ++ "/CMakeLists.txt")
          = out2.content (setup.outputDir ++ "/CMakeLists.txt")
      ∧ generate p LIBS_DEFINE addFilesToProject setup targets out1 = .done out1 := by
  obtain ⟨text, h⟩ := generate_writable p LIBS_DEFINE addFilesToProject setup targets
  refine ⟨_, _, h fs1 hopen1, h fs2 hopen2, ?_, ?_⟩
  · rw [close_content_self, close_content_self]
  · rw [h _ (by rw [close_writable]; exact hopen1), close_close]

/-- Witness of C9 on the sample project, from an empty artifact and from an
artifact that holds "old". -/
theorem generate_idempotent_witness :
    emptyFileSystem.writable (demoSetup.outputDir ++ "/CMakeLists.txt") = true
      ∧ staleFileSystem.writable (demoSetup.outputDir ++ "/CMakeLists.txt") = true
      ∧ ∃ out1 out2 : FileSystem,
        generate demoProvider "SCUMMVM_LIBS" demoAddFiles demoSetup demoTargets emptyFileSystem
          = .done out1
        ∧ generate demoProvider "SCUMMVM_LIBS" demoAddFiles demoSetup demoTargets staleFileSystem
          = .done out2
        ∧ out1.content (demoSetup.outputDir ++ "/CMakeLists.txt")
            = out2.content (demoSetup.outputDir ++ "/CMakeLists.txt")
        ∧ generate demoProvider "SCUMMVM_LIBS" demoAddFiles demoSetup demoTargets out1
          = .done out1 :=
  ⟨rfl, rfl, generate_idempotent demoProvider "SCUMMVM_LIBS" demoAddFiles demoSetup demoTargets
    emptyFileSystem staleFileSystem rfl rfl⟩

/-! ## Auxiliary lemmas on string search and the module path -/

theorem findFrom_eq_none (str s : List Char) (pos : Nat) :
    findFrom str s pos = none ↔ ¬ str <:+: s := by
  induction s generalizing pos with
  | nil =>
    by_cases h : str = []
    · simp [findFrom, h]
    · simp [findFrom, h]
  | cons c cs ih =>
    by_cases h : str <+: c :: cs
    · simp [findFrom, h, List.infix_cons_iff]
    · simp [findFrom, h, List.infix_cons_iff, ih]

theorem findFrom_eq_some (str s : List Char) (pos n : Nat) (h : findFrom str s pos = some n) :
    ∃ pre post : List Char, s = pre ++ str ++ post ∧ n = pos + pre.length
      ∧ ∀ pre2 post2 : List Char, s = pre2 ++ str ++ post2 → pre.length ≤ pre2.length := by
  induction s generalizing pos with
  | nil =>
    by_cases hs : str = []
    · subst hs
      simp only [findFrom, if_true, Option.some.injEq] at h
      exact ⟨[], [], by simp, by simp [h], fun _ _ _ => Nat.zero_le _⟩
    · simp [findFrom, hs] at h
  | cons c cs ih =>
    by_cases hp : str <+: c :: cs
    · simp only [findFrom, hp, if_true, Option.some.injEq] at h
      obtain ⟨post, hpost⟩ := hp
      exact ⟨[], post, by simp [hpost], by simp [h], fun _ _ _ => Nat.zero_le _⟩
    · simp only [findFrom, hp, if_false] at h
      obtain ⟨pre, post, hs, hn, hmin⟩ := ih (pos + 1) h
      refine ⟨c :: pre, post, by simp [hs], by simp [hn]; omega, ?_⟩
      intro pre2 post2 h2
      cases pre2 with
      | nil =>
        exact absurd ⟨post2, by simpa using h2.symm⟩ hp
      | cons d pre3 =>
        simp only [List.cons_append, List.cons.injEq] at h2
        have := hmin pre3 post2 h2.2
        simp only [List.length_cons]
        omega

theorem replace_first_occurrence (name marker : String) (n : Nat)
    (hlen : marker.length = 7) (h : find name marker = some n) :
    ∃ pre post : String, name = pre ++ marker ++ post
      ∧ (∀ pre2 post2 : String, name = pre2 ++ marker ++ post2 → pre.length ≤ pre2.length)
      ∧ replace name n 7 "" = some (pre ++ post) := by
  obtain ⟨pre, post, hs, hn, hmin⟩ := findFrom_eq_some marker.data name.data 0 n h
  have hn2 : n = pre.length := by omega
  refine ⟨⟨pre⟩, ⟨post⟩, ?_, ?_, ?_⟩
  · apply String.ext
    simp only [String.data_append, hs]
  · intro pre2 post2 h2
    have := hmin pre2.data post2.data (by rw [h2]; simp only [String.data_append])
    exact this
  · have hml : marker.data.length = 7 := hlen
    have hle : n ≤ name.length := by
      simp only [String.length, hs, List.length_append, hn2]
      omega
    simp only [replace, hle, if_true, Option.some.injEq]
    apply String.ext
    simp only [String.data_append, hs, hn2]
    have e1 : List.take pre.length (pre ++ marker.data ++ post) = pre := by
      rw [List.append_assoc, List.take_left]
    have e2 : List.drop (pre.length + 7) (pre ++ marker.data ++ post) = post := by
      rw [← hml, ← List.length_append, List.drop_left]
    rw [e1, e2]
    show pre ++ [] ++ post = pre ++ post
    simp

theorem underscore_static_no_overlap (y : List Char) (hy : y ≠ [])
    (hno : ¬ ['_', 's', 't', 'a', 't', 'i', 'c'] <:+: y) :
    ¬ ['_', 's', 't', 'a', 't', 'i', 'c'] <+: y ++ ['_', 's', 't', 'a', 't', 'i', 'c'] := by
  intro h
  rcases y with _ | ⟨c1, _ | ⟨c2, _ | ⟨c3, _ | ⟨c4, _ | ⟨c5, _ | ⟨c6, _ | ⟨c7, rest⟩⟩⟩⟩⟩⟩⟩
  · exact hy rfl
  all_goals simp [List.cons_prefix_cons] at h
  obtain ⟨h1, h2, h3, h4, h5, h6, h7⟩ := h
  subst h1 h2 h3 h4 h5 h6 h7
  exact hno ⟨[], rest, by simp⟩

theorem dash_static_no_overlap (y : List Char) (hy : y ≠ [])
    (hno : ¬ ['-', 's', 't', 'a', 't', 'i', 'c'] <:+: y) :
    ¬ ['-', 's', 't', 'a', 't', 'i', 'c'] <+: y ++ ['-', 's', 't', 'a', 't', 'i', 'c'] := by
  intro h
  rcases y with _ | ⟨c1, _ | ⟨c2, _ | ⟨c3, _ | ⟨c4, _ | ⟨c5, _ | ⟨c6, _ | ⟨c7, rest⟩⟩⟩⟩⟩⟩⟩
  · exact hy rfl
  all_goals simp [List.cons_prefix_cons] at h
  obtain ⟨h1, h2, h3, h4, h5, h6, h7⟩ := h
  subst h1 h2 h3 h4 h5 h6 h7
  exact hno ⟨[], rest, by simp⟩

theorem underscore_dash_no_overlap (y : List Char)
    (hno : ¬ ['_', 's', 't', 'a', 't', 'i', 'c'] <:+: y) :
    ¬ ['_', 's', 't', 'a', 't', 'i', 'c'] <+: y ++ ['-', 's', 't', 'a', 't', 'i', 'c'] := by
  intro h
  rcases y with _ | ⟨c1, _ | ⟨c2, _ | ⟨c3, _ | ⟨c4, _ | ⟨c5, _ | ⟨c6, _ | ⟨c7, rest⟩⟩⟩⟩⟩⟩⟩
  all_goals simp [List.cons_prefix_cons] at h
  obtain ⟨h1, h2, h3, h4, h5, h6, h7⟩ := h
  subst h1 h2 h3 h4 h5 h6 h7
  exact hno ⟨[], rest, by simp⟩

theorem underscore_not_in_dash (y : List Char)
    (hno : ¬ ['_', 's', 't', 'a', 't', 'i', 'c'] <:+: y) :
    ¬ ['_', 's', 't', 'a', 't', 'i', 'c'] <:+: y ++ ['-', 's', 't', 'a', 't', 'i', 'c'] := by
  induction y with
  | nil => decide
  | cons c cs ih =>
    rw [List.cons_append, List.infix_cons_iff]
    rintro (h | h)
    · exact underscore_dash_no_overlap (c :: cs) hno h
    · exact ih (fun hc => hno (List.infix_cons hc)) h

theorem findFrom_append (str tail x : List Char) (pos : Nat) (htail : str <+: tail)
    (hover : ∀ y : List Char, y ≠ [] → ¬ str <:+: y → ¬ str <+: y ++ tail)
    (hno : ¬ str <:+: x) :
    findFrom str (x ++ tail) pos = some (pos + x.length) := by
  induction x generalizing pos with
  | nil =>
    cases tail with
    | nil =>
      have : str = [] := List.prefix_nil.mp htail
      simp [findFrom, this]
    | cons c cs => simp [findFrom, htail]
  | cons c cs ih =>
    have h1 : ¬ str <+: c :: (cs ++ tail) := hover (c :: cs) (by simp) hno
    have h2 : ¬ str <:+: cs := fun hc => hno (List.infix_cons hc)
    rw [List.cons_append, findFrom, if_neg h1, ih (pos + 1) h2, List.length_cons]
    congr 1
    omega

theorem replace_suffix (x marker : String) (hlen : marker.length = 7) :
    replace (x ++ marker) x.length 7 "" = some x := by
  have hml : marker.data.length = 7 := hlen
  have hle : x.length ≤ (x ++ marker).length := by
    rw [String.length_append]
    omega
  simp only [replace, hle, if_true, Option.some.injEq]
  apply String.ext
  simp only [String.data_append]
  have e1 : List.take x.length (x.data ++ marker.data) = x.data :=
    List.take_left x.data marker.data
  have e2 : List.drop (x.length + 7) (x.data ++ marker.data) = [] := by
    apply List.drop_eq_nil_of_le
    rw [List.length_append, hml]
    exact Nat.le_refl _
  rw [e1, e2]
  show x.data ++ [] ++ [] = x.data
  simp

theorem modulePath_append (srcDir rest : String) :
    modulePath (srcDir ++ rest) srcDir
      = some (match rest.data with
          | '/' :: t => ⟨t⟩
          | _ => rest) := by
  have htake : List.take srcDir.length (srcDir ++ rest).data = srcDir.data := by
    rw [String.data_append]
    exact List.take_left srcDir.data rest.data
  have hdrop : List.drop srcDir.length (srcDir ++ rest).data = rest.data := by
    rw [String.data_append]
    exact List.drop_left srcDir.data rest.data
  have hle : srcDir.length ≤ (srcDir ++ rest).length := by
    rw [String.length_append]
    omega
  have hcmp : compareChars (List.take srcDir.length (srcDir ++ rest).data) srcDir.data = 0 :=
    (compareChars_eq_zero _ _).mpr htake
  simp only [modulePath, compare, Nat.zero_le, if_true, List.drop_zero, hcmp, substr, hle, hdrop]
  rcases hr : rest.data with _ | ⟨c, t⟩
  · have h0 : (String.mk ([] : List Char)).length = 0 := rfl
    simp only [h0, ne_eq, not_true_eq_false, if_false, Option.some.injEq]
    exact String.ext hr.symm
  · have h0 : (String.mk (c :: t)).length ≠ 0 := by
      show (c :: t).length ≠ 0
      simp
    simp only [h0, ne_eq, not_false_eq_true, if_true, at_, List.get?_cons_zero]
    by_cases hs : c = '/'
    · subst hs
      simp only [if_true, erase, Nat.zero_le]
      rfl
    · simp only [hs, if_false, Option.some.injEq]
      have hm : (match c :: t with
          | '/' :: t => (⟨t⟩ : String)
          | _ => rest) = rest := by
        split
        · rename_i heq
          simp only [List.cons.injEq] at heq
          exact absurd heq.1 hs
        · rfl
      rw [hm]
      exact String.ext hr.symm

theorem modulePath_not_prefix (moduleDir srcDir : String)
    (h : ¬ srcDir.data <+: moduleDir.data) : modulePath moduleDir srcDir = some "" := by
  have hcmp : compareChars (List.take srcDir.length moduleDir.data) srcDir.data ≠ 0 := by
    intro hc
    have := (compareChars_eq_zero _ _).mp hc
    exact h (this ▸ List.take_prefix _ _)
  simp only [modulePath, compare, Nat.zero_le, if_true, List.drop_zero, hcmp, if_false]

theorem createProjectFile_calls_addFiles (p : CMakeProvider) (name uuid : String)
    (setup : BuildSetup) (moduleDir : String) (includeList excludeList : List String)
    (fs : FileSystem) (mp : String)
    (hopen : fs.writable (setup.outputDir ++ "/CMakeLists.txt") = true)
    (hmp : modulePath moduleDir setup.srcDir = some mp) :
    ∃ opening closing : String,
      ∀ addFilesToProject : String → List String → List String → String → String,
        createProjectFile p addFilesToProject name uuid setup moduleDir includeList
            excludeList fs
          = .done (fs.close (setup.outputDir ++ "/CMakeLists.txt")
              (fs.content (setup.outputDir ++ "/CMakeLists.txt") ++ opening
                ++ addFilesToProject moduleDir includeList excludeList
                    (if mp.length ≠ 0 then setup.filePrefix ++ "/" ++ mp else setup.filePrefix)
                ++ closing)) := by
  by_cases hname : name = setup.projectName
  · subst hname
    refine ⟨"add_executable(" ++ setup.projectName ++ "\n",
      ")\n" ++ ("target_link_libraries(" ++ setup.projectName ++ "\n"
        ++ "\t$\x7bSDL_LIBRARY\x7d\n"
        ++ "\t$\x7bFREETYPE_LIBRARIES\x7d\n"
        ++ "\t$\x7bZLIB_LIBRARIES\x7d\n"
        ++ "\tGL\n"
        ++ String.join (((p._uuidMap.map Prod.fst).filter
            (fun n => n ≠ setup.projectName)).map (fun n => "\t" ++ n ++ "\n"))
        ++ ")\n"), fun addFilesToProject => ?_⟩
    rw [createProjectFile_executable p addFilesToProject uuid setup moduleDir includeList
      excludeList fs mp hopen hmp]
    simp only [String.append_assoc]
  · refine ⟨"add_library(" ++ name ++ "\n", ")\n", fun addFilesToProject => ?_⟩
    rw [createProjectFile_library p addFilesToProject name uuid setup moduleDir includeList
      excludeList fs mp hopen hmp hname]
    simp only [String.append_assoc]

theorem compare_zero_length (moduleDir srcDir : String)
    (h : compare moduleDir 0 srcDir.length srcDir = some 0) :
    srcDir.length ≤ moduleDir.length := by
  simp only [compare, Nat.zero_le, if_true, List.drop_zero, Option.some.injEq] at h
  have hpre := (compareChars_eq_zero _ _).mp h
  have := congrArg List.length hpre
  simp only [List.length_take, String.length] at this ⊢
  omega

theorem createProjectFiles_projectWarnings (p : CMakeProvider)
    (warnings : List (String × List String))
    (addFilesToProject : String → List String → List String → String → String)
    (setup : BuildSetup) (targets : List Target) (fs : FileSystem) :
    createProjectFiles { p with _projectWarnings := warnings } addFilesToProject setup targets fs
      = createProjectFiles p addFilesToProject setup targets fs := by
  induction targets generalizing fs with
  | nil => rfl
  | cons t ts ih =>
    have h : createProjectFile { p with _projectWarnings := warnings } addFilesToProject t.name
        t.uuid setup t.moduleDir t.includeList t.excludeList fs
        = createProjectFile p addFilesToProject t.name t.uuid setup t.moduleDir t.includeList
            t.excludeList fs := rfl
    simp only [createProjectFiles, h]
    cases createProjectFile p addFilesToProject t.name t.uuid setup t.moduleDir t.includeList
        t.excludeList fs with
    | done fs1 => exact ih fs1
    | failed m fs1 => rfl
    | thrown w fs1 => rfl

theorem generate_projectWarnings (p : CMakeProvider) (warnings : List (String × List String))
    (LIBS_DEFINE : String)
    (addFilesToProject : String → List String → List String → String → String)
    (setup : BuildSetup) (targets : List Target) (fs : FileSystem) :
    generate { p with _projectWarnings := warnings } LIBS_DEFINE addFilesToProject setup targets fs
      = generate p LIBS_DEFINE addFilesToProject setup targets fs := by
  have h : createWorkspace { p with _projectWarnings := warnings } LIBS_DEFINE setup fs
      = createWorkspace p LIBS_DEFINE setup fs := rfl
  simp only [generate, h]
  cases createWorkspace p LIBS_DEFINE setup fs with
  | done fs1 => exact createProjectFiles_projectWarnings p warnings addFilesToProject setup targets fs1
  | failed m fs1 => rfl
  | thrown w fs1 => rfl

/-! ## Library names -/

/-- C14: for every library name X that contains neither "_static" nor
"-static", processLibraryName returns X both for X followed by "_static"
and for X followed by "-static". -/
theorem processLibraryName_static_variants (x : String)
    (h1 : ¬ ("_static" : String).data <:+: x.data)
    (h2 : ¬ ("-static" : String).data <:+: x.data) :
    processLibraryName (x ++ "_static") = some x
      ∧ processLibraryName (x ++ "-static") = some x := by
  have hu : find (x ++ "_static") "_static" = some x.length := by
    have := findFrom_append ("_static" : String).data ("_static" : String).data x.data 0
      (List.prefix_refl _) (fun y hy hn => underscore_static_no_overlap y hy hn) h1
    rw [find, String.data_append, this, Nat.zero_add]
    rfl
  have hn : find (x ++ "-static") "_static" = none := by
    have := underscore_not_in_dash x.data h1
    exact (findFrom_eq_none _ _ _).mpr this
  have hd : find (x ++ "-static") "-static" = some x.length := by
    have := findFrom_append ("-static" : String).data ("-static" : String).data x.data 0
      (List.prefix_refl _) (fun y hy hn => dash_static_no_overlap y hy hn) h2
    rw [find, String.data_append, this, Nat.zero_add]
    rfl
  constructor
  · simp only [processLibraryName, hu]
    exact replace_suffix x "_static" rfl
  · simp only [processLibraryName, hn, hd]
    exact replace_suffix x "-static" rfl

/-- Witness of C14 on the library name "SDL". -/
theorem processLibraryName_static_variants_witness :
    ¬ ("_static" : String).data <:+: ("SDL" : String).data
      ∧ ¬ ("-static" : String).data <:+: ("SDL" : String).data
      ∧ processLibraryName ("SDL" ++ "_static") = some "SDL"
      ∧ processLibraryName ("SDL" ++ "-static") = some "SDL" :=
  ⟨by decide, by decide,
    processLibraryName_static_variants "SDL" (by decide) (by decide)⟩

/-- C15: processLibraryName turns "zlib" into "libz"; it returns every other
name that contains neither "_static" nor "-static" unchanged; for a name
that contains "_static" it removes the first occurrence of "_static", and
for a name that contains "-static" but not "_static" it removes the first
occurrence of "-static", leaving the text before and after it as it is. -/
theorem processLibraryName_cases (name : String) :
    processLibraryName "zlib" = some "libz"
      ∧ (name ≠ "zlib" → ¬ ("_static" : String).data <:+: name.data →
          ¬ ("-static" : String).data <:+: name.data → processLibraryName name = some name)
      ∧ (("_static" : String).data <:+: name.data →
          ∃ pre post : String, name = pre ++ "_static" ++ post
            ∧ (∀ pre2 post2 : String, name = pre2 ++ "_static" ++ post2 →
                pre.length ≤ pre2.length)
            ∧ processLibraryName name = some (pre ++ post))
      ∧ (¬ ("_static" : String).data <:+: name.data →
          ("-static" : String).data <:+: name.data →
          ∃ pre post : String, name = pre ++ "-static" ++ post
            ∧ (∀ pre2 post2 : String, name = pre2 ++ "-static" ++ post2 →
                pre.length ≤ pre2.length)
            ∧ processLibraryName name = some (pre ++ post)) := by
  refine ⟨by decide, ?_, ?_, ?_⟩
  · intro hz hu hd
    have h1 : find name "_static" = none := (findFrom_eq_none _ _ _).mpr hu
    have h2 : find name "-static" = none := (findFrom_eq_none _ _ _).mpr hd
    simp only [processLibraryName, h1, h2, hz, if_false]
  · intro hu
    cases h : find name "_static" with
    | none => exact absurd hu ((findFrom_eq_none _ _ _).mp h)
    | some n =>
      obtain ⟨pre, post, hname, hmin, hrep⟩ := replace_first_occurrence name "_static" n rfl h
      exact ⟨pre, post, hname, hmin, by simp only [processLibraryName, h, hrep]⟩
  · intro hu hd
    have h1 : find name "_static" = none := (findFrom_eq_none _ _ _).mpr hu
    cases h : find name "-static" with
    | none => exact absurd hd ((findFrom_eq_none _ _ _).mp h)
    | some n =>
      obtain ⟨pre, post, hname, hmin, hrep⟩ := replace_first_occurrence name "-static" n rfl h
      exact ⟨pre, post, hname, hmin, by simp only [processLibraryName, h1, h, hrep]⟩

/-- Witness of C15 on a name with both markers: only the first "_static" is
removed. -/
theorem processLibraryName_cases_witness :
    ("_static" : String).data <:+: ("foo-static-x_static_y_static" : String).data
      ∧ processLibraryName "foo-static-x_static_y_static" = some "foo-static-x_y_static"
      ∧ ∃ pre post : String, "foo-static-x_static_y_static" = pre ++ "_static" ++ post
          ∧ (∀ pre2 post2 : String,
              "foo-static-x_static_y_static" = pre2 ++ "_static" ++ post2 →
                pre.length ≤ pre2.length)
          ∧ processLibraryName "foo-static-x_static_y_static" = some (pre ++ post) :=
  ⟨by decide, by decide,
    (processLibraryName_cases "foo-static-x_static_y_static").2.2.1 (by decide)⟩

/-! ## Module path -/

/-- C17: when moduleDir is setup.srcDir followed by "/" and a non-empty
path rel, createProjectFile calls the file-list emission with the prefix
setup.filePrefix followed by "/" and rel; when moduleDir is setup.srcDir, or
setup.srcDir followed by "/", or does not start with setup.srcDir, it calls
it with setup.filePrefix unchanged. -/
theorem createProjectFile_file_prefix (p : CMakeProvider) (name uuid : String)
    (setup : BuildSetup) (rel moduleDir : String) (includeList excludeList : List String)
    (fs : FileSystem)
    (hopen : fs.writable (setup.outputDir ++ "/CMakeLists.txt") = true)
    (hrel : rel ≠ "") :
    (∃ opening closing : String,
      ∀ addFilesToProject : String → List String → List String → String → String,
        createProjectFile p addFilesToProject name uuid setup (setup.srcDir ++ "/" ++ rel)
            includeList excludeList fs
          = .done (fs.close (setup.outputDir ++ "/CMakeLists.txt")
              (fs.content (setup.outputDir ++ "/CMakeLists.txt") ++ opening
                ++ addFilesToProject (setup.srcDir ++ "/" ++ rel) includeList excludeList
                    (setup.filePrefix ++ "/" ++ rel)
                ++ closing)))
      ∧ (moduleDir = setup.srcDir ∨ moduleDir = setup.srcDir ++ "/"
          ∨ ¬ setup.srcDir.data <+: moduleDir.data →
        ∃ opening closing : String,
          ∀ addFilesToProject : String → List String → List String → String → String,
            createProjectFile p addFilesToProject name uuid setup moduleDir
                includeList excludeList fs
              = .done (fs.close (setup.outputDir ++ "/CMakeLists.txt")
                  (fs.content (setup.outputDir ++ "/CMakeLists.txt") ++ opening
                    ++ addFilesToProject moduleDir includeList excludeList setup.filePrefix
                    ++ closing))) := by
  constructor
  · have hmp : modulePath (setup.srcDir ++ "/" ++ rel) setup.srcDir = some rel := by
      rw [String.append_assoc, modulePath_append]
      rfl
    have hlen : rel.length ≠ 0 := by
      intro h0
      apply hrel
      apply String.ext
      exact List.length_eq_zero.mp h0
    obtain ⟨opening, closing, h⟩ := createProjectFile_calls_addFiles p name uuid setup
      (setup.srcDir ++ "/" ++ rel) includeList excludeList fs rel hopen hmp
    refine ⟨opening, closing, fun addFilesToProject => ?_⟩
    rw [h addFilesToProject, if_pos hlen]
  · intro hcase
    have hmp : modulePath moduleDir setup.srcDir = some "" := by
      rcases hcase with h | h | h
      · have := modulePath_append setup.srcDir ""
        rw [String.append_empty] at this
        rw [h, this]
      · rw [h, modulePath_append]
        rfl
      · exact modulePath_not_prefix moduleDir setup.srcDir h
    obtain ⟨opening, closing, h⟩ := createProjectFile_calls_addFiles p name uuid setup
      moduleDir includeList excludeList fs "" hopen hmp
    refine ⟨opening, closing, fun addFilesToProject => ?_⟩
    rw [h addFilesToProject]
    rfl

/-- Witness of C17 on the module "engines/enginelib" of the sample project. -/
theorem createProjectFile_file_prefix_witness :
    emptyFileSystem.writable (demoSetup.outputDir ++ "/CMakeLists.txt") = true
      ∧ ("engines/enginelib" : String) ≠ ""
      ∧ (∃ opening closing : String,
        ∀ addFilesToProject : String → List String → List String → String → String,
          createProjectFile demoProvider addFilesToProject "enginelib" "id2" demoSetup
              (demoSetup.srcDir ++ "/" ++ "engines/enginelib") [] [] emptyFileSystem
            = .done (emptyFileSystem.close (demoSetup.outputDir ++ "/CMakeLists.txt")
                (emptyFileSystem.content (demoSetup.outputDir ++ "/CMakeLists.txt") ++ opening
                  ++ addFilesToProject (demoSetup.srcDir ++ "/" ++ "engines/enginelib") [] []
                      (demoSetup.filePrefix ++ "/" ++ "engines/enginelib")
                  ++ closing)))
      ∧ ("/src" = demoSetup.srcDir ∨ "/src" = demoSetup.srcDir ++ "/"
          ∨ ¬ demoSetup.srcDir.data <+: ("/src" : String).data →
        ∃ opening closing : String,
          ∀ addFilesToProject : String → List String → List String → String → String,
            createProjectFile demoProvider addFilesToProject "enginelib" "id2" demoSetup "/src"
                [] [] emptyFileSystem
              = .done (emptyFileSystem.close (demoSetup.outputDir ++ "/CMakeLists.txt")
                  (emptyFileSystem.content (demoSetup.outputDir ++ "/CMakeLists.txt") ++ opening
                    ++ addFilesToProject "/src" [] [] demoSetup.filePrefix
                    ++ closing))) :=
  ⟨rfl, by decide,
    createProjectFile_file_prefix demoProvider "enginelib" "id2" demoSetup "engines/enginelib"
      "/src" [] [] emptyFileSystem rfl (by decide)⟩

/-- C19: the string operations of the module-path computation stay in range:
the comparison from position 0 never throws; substr(srcDir.size()) is
reached only when the comparison gives 0, and then srcDir.size() is at most
moduleDir.size(); at(0) is reached only on a non-empty string; so the
computation always yields a module path and createProjectFile never ends by
an exception. -/
theorem modulePath_in_range (p : CMakeProvider)
    (addFilesToProject : String → List String → List String → String → String)
    (name uuid : String) (setup : BuildSetup) (moduleDir : String)
    (includeList excludeList : List String) (fs : FileSystem) :
    (∃ c, compare moduleDir 0 setup.srcDir.length setup.srcDir = some c)
      ∧ (compare moduleDir 0 setup.srcDir.length setup.srcDir = some 0 →
          setup.srcDir.length ≤ moduleDir.length
          ∧ ∃ rest, substr moduleDir setup.srcDir.length = some rest
            ∧ (rest.length ≠ 0 → ∃ c, at_ rest 0 = some c))
      ∧ (∃ mp, modulePath moduleDir setup.srcDir = some mp)
      ∧ ∀ (what : String) (fs2 : FileSystem),
          createProjectFile p addFilesToProject name uuid setup moduleDir includeList
            excludeList fs ≠ .thrown what fs2 := by
  refine ⟨⟨compareChars (List.take setup.srcDir.length moduleDir.data) setup.srcDir.data,
    by simp only [compare, Nat.zero_le, if_true, List.drop_zero]⟩, ?_, modulePath_total _ _, ?_⟩
  · intro hc
    have hlen : setup.srcDir.length ≤ moduleDir.length :=
      compare_zero_length moduleDir setup.srcDir hc
    refine ⟨hlen, ⟨⟨List.drop setup.srcDir.length moduleDir.data⟩,
      by simp only [substr, hlen, if_true], ?_⟩⟩
    intro hne
    rcases hd : List.drop setup.srcDir.length moduleDir.data with _ | ⟨c, t⟩
    · exact absurd (by rw [hd]; rfl) hne
    · exact ⟨c, by simp only [at_, hd, List.get?_cons_zero]⟩
  · intro what fs2
    obtain ⟨mp, hmp⟩ := modulePath_total moduleDir setup.srcDir
    by_cases hopen : fs.writable (setup.outputDir ++ "/CMakeLists.txt") = true
    · obtain ⟨text, ht⟩ := createProjectFile_appends p addFilesToProject name uuid setup
        moduleDir includeList excludeList
      rw [ht fs hopen]
      exact fun h => Outcome.noConfusion h
    · simp only [createProjectFile, FileSystem.ofstreamApp, hopen, error]
      exact fun h => Outcome.noConfusion h

/-! ## Unused inputs -/

/-- C18: the text writeFileListToProject adds is the same for all values of
indentation, of the duplicate list and of objPrefix. -/
theorem writeFileListToProject_unused_arguments (dir : FileNode) (projectFile : String)
    (indentation1 indentation2 : Int) (duplicate1 duplicate2 : List String)
    (objPrefix1 objPrefix2 filePrefix : String) :
    writeFileListToProject dir projectFile indentation1 duplicate1 objPrefix1 filePrefix
      = writeFileListToProject dir projectFile indentation2 duplicate2 objPrefix2 filePrefix := by
  rw [writeFileListToProject_eq, writeFileListToProject_eq]

/-! ## Claims the code departs from -/

/-- C11, the claim fails: for the library target "enginelib" with the module
directory "/elsewhere/enginelib", which does not start with the source root
"/src", createProjectFile opens the artifact, ends normally and leaves the
declaration of the target in it. -/
theorem createProjectFile_outside_root_counterexample :
    ¬ demoSetup.srcDir.data <+: ("/elsewhere/enginelib" : String).data
      ∧ createProjectFile demoProvider demoAddFiles "enginelib" "id2" demoSetup
          "/elsewhere/enginelib" [] [] emptyFileSystem
        = .done (emptyFileSystem.close "/out/CMakeLists.txt"
            "add_library(enginelib\n\t../a.cpp\n)\n") := by
  refine ⟨by decide, ?_⟩
  rw [createProjectFile_library demoProvider demoAddFiles "enginelib" "id2" demoSetup
    "/elsewhere/enginelib" [] [] emptyFileSystem "" rfl (by decide) (by decide)]
  rfl

/-- C11, amended: for a target whose moduleDir does not start with
setup.srcDir, createProjectFile raises no configuration error: when the
artifact can be opened it ends normally and adds the declaration of the
target with the file list under the prefix setup.filePrefix; when the
artifact cannot be opened it ends with the error of the failed open. -/
theorem createProjectFile_outside_source_root (p : CMakeProvider)
    (addFilesToProject : String → List String → List String → String → String)
    (name uuid : String) (setup : BuildSetup) (moduleDir : String)
    (includeList excludeList : List String) (fs : FileSystem)
    (hout : ¬ setup.srcDir.data <+: moduleDir.data) :
    (fs.writable (setup.outputDir ++ "/CMakeLists.txt") = true →
        ∃ closing : String,
          createProjectFile p addFilesToProject name uuid setup moduleDir includeList
              excludeList fs
            = .done (fs.close (setup.outputDir ++ "/CMakeLists.txt")
                (fs.content (setup.outputDir ++ "/CMakeLists.txt")
                  ++ (if name = setup.projectName then "add_executable(" else "add_library(")
                  ++ name ++ "\n"
                  ++ addFilesToProject moduleDir includeList excludeList setup.filePrefix
                  ++ ")\n" ++ closing)))
      ∧ (fs.writable (setup.outputDir ++ "/CMakeLists.txt") = false →
        createProjectFile p addFilesToProject name uuid setup moduleDir includeList
            excludeList fs
          = error ("Could not open \"" ++ (setup.outputDir ++ "/CMakeLists.txt")
              ++ "\" for writing") fs) := by
  have hmp := modulePath_not_prefix moduleDir setup.srcDir hout
  constructor
  · intro hopen
    by_cases hname : name = setup.projectName
    · subst hname
      refine ⟨"target_link_libraries(" ++ setup.projectName ++ "\n"
        ++ "\t$\x7bSDL_LIBRARY\x7d\n"
        ++ "\t$\x7bFREETYPE_LIBRARIES\x7d\n"
        ++ "\t$\x7bZLIB_LIBRARIES\x7d\n"
        ++ "\tGL\n"
        ++ String.join (((p._uuidMap.map Prod.fst).filter
            (fun n => n ≠ setup.projectName)).map (fun n => "\t" ++ n ++ "\n"))
        ++ ")\n", ?_⟩
      rw [createProjectFile_executable p addFilesToProject uuid setup moduleDir includeList
        excludeList fs "" hopen hmp]
      simp only [if_true, String.append_assoc]
      rfl
    · refine ⟨"", ?_⟩
      rw [createProjectFile_library p addFilesToProject name uuid setup moduleDir includeList
        excludeList fs "" hopen hmp hname]
      simp only [hname, if_false, String.append_assoc, String.append_empty]
      rfl
  · intro hclosed
    simp only [createProjectFile, FileSystem.ofstreamApp, hclosed, Bool.false_eq_true, if_false]

/-- Witness of C11, amended, on the input of the counterexample. -/
theorem createProjectFile_outside_source_root_witness :
    ¬ demoSetup.srcDir.data <+: ("/elsewhere/enginelib" : String).data
      ∧ (emptyFileSystem.writable (demoSetup.outputDir ++ "/CMakeLists.txt") = true →
        ∃ closing : String,
          createProjectFile demoProvider demoAddFiles "enginelib" "id2" demoSetup
              "/elsewhere/enginelib" [] [] emptyFileSystem
            = .done (emptyFileSystem.close (demoSetup.outputDir ++ "/CMakeLists.txt")
                (emptyFileSystem.content (demoSetup.outputDir ++ "/CMakeLists.txt")
                  ++ (if "enginelib" = demoSetup.projectName then "add_executable("
                      else "add_library(")
                  ++ "enginelib" ++ "\n"
                  ++ demoAddFiles "/elsewhere/enginelib" [] [] demoSetup.filePrefix
                  ++ ")\n" ++ closing))) :=
  ⟨by decide,
    (createProjectFile_outside_source_root demoProvider demoAddFiles "enginelib" "id2" demoSetup
      "/elsewhere/enginelib" [] [] emptyFileSystem (by decide)).1⟩

set_option maxRecDepth 100000 in
/-- C12, the claim fails: with the per-target flag "-Wextra" supplied for the
target "main", the generation run ends exactly as the run of the sample
provider, which has no per-target flag: the same file system and nothing
else, and the artifact does not contain the flag. -/
theorem generate_projectWarnings_counterexample :
    demoProvider._projectWarnings = []
    ∧ generate { demoProvider with _projectWarnings := [("main", ["-Wextra"])] } "SCUMMVM_LIBS"
        demoAddFiles demoSetup demoTargets emptyFileSystem
      = generate demoProvider "SCUMMVM_LIBS" demoAddFiles demoSetup demoTargets emptyFileSystem
    ∧ ¬ ("-Wextra" : String).data <:+:
        ((generate { demoProvider with _projectWarnings := [("main", ["-Wextra"])] }
          "SCUMMVM_LIBS" demoAddFiles demoSetup demoTargets emptyFileSystem).fs.content
            "/out/CMakeLists.txt").data := by
  refine ⟨rfl, ?_, by decide⟩
  exact generate_projectWarnings demoProvider [("main", ["-Wextra"])] "SCUMMVM_LIBS"
    demoAddFiles demoSetup demoTargets emptyFileSystem

/-- C12, amended: the CMake provider does not read the per-target warning
flags: the generation run ends in the same way, with the same file system,
for every value of _projectWarnings, and writeWarnings writes the same
block; the flags are neither rendered nor reported. -/
theorem generate_ignores_projectWarnings (p : CMakeProvider)
    (warnings : List (String × List String)) (LIBS_DEFINE : String)
    (addFilesToProject : String → List String → List String → String → String)
    (setup : BuildSetup) (targets : List Target) (fs : FileSystem) (output : String) :
    generate { p with _projectWarnings := warnings } LIBS_DEFINE addFilesToProject setup
          targets fs
        = generate p LIBS_DEFINE addFilesToProject setup targets fs
      ∧ writeWarnings { p with _projectWarnings := warnings } output = writeWarnings p output :=
  ⟨generate_projectWarnings p warnings LIBS_DEFINE addFilesToProject setup targets fs, rfl⟩

set_option maxRecDepth 100000 in
/-- C13, the claim fails: with the external library "winmm" declared in
setup.libraries, the link block of the executable target "main" holds the
four fixed libraries and the other target "enginelib", and no entry for
"winmm". -/
theorem createProjectFile_libraries_counterexample :
    "winmm" ∈ ({ demoSetup with libraries := ["winmm"] } : BuildSetup).libraries
      ∧ createProjectFile demoProvider demoAddFiles "main" "id1"
          { demoSetup with libraries := ["winmm"] } "/src" [] [] emptyFileSystem
        = .done (emptyFileSystem.close "/out/CMakeLists.txt"
            ("add_executable(main\n\t../a.cpp\n)\n"
              ++ "target_link_libraries(main\n"
              ++ "\t$\x7bSDL_LIBRARY\x7d\n"
              ++ "\t$\x7bFREETYPE_LIBRARIES\x7d\n"
              ++ "\t$\x7bZLIB_LIBRARIES\x7d\n"
              ++ "\tGL\n"
              ++ "\tenginelib\n"
              ++ ")\n"))
      ∧ ¬ ("winmm" : String).data <:+:
          ((createProjectFile demoProvider demoAddFiles "main" "id1"
            { demoSetup with libraries := ["winmm"] } "/src" [] [] emptyFileSystem).fs.content
              "/out/CMakeLists.txt").data := by
  refine ⟨by decide, ?_, by decide⟩
  refine (createProjectFile_executable demoProvider demoAddFiles "id1"
    { demoSetup with libraries := ["winmm"] } "/src" [] [] emptyFileSystem "" rfl
    (by decide)).trans ?_
  rfl

/-- C13, amended: setup.libraries is not read: createProjectFile ends in the
same way for every value of setup.libraries; for the Executable target the
link block lists the four fixed entries SDL_LIBRARY, FREETYPE_LIBRARIES,
ZLIB_LIBRARIES and GL, and then every other registered target. -/
theorem createProjectFile_ignores_libraries (p : CMakeProvider)
    (addFilesToProject : String → List String → List String → String → String)
    (name uuid : String) (setup : BuildSetup) (libraries : List String) (moduleDir : String)
    (includeList excludeList : List String) (fs : FileSystem) :
    createProjectFile p addFilesToProject name uuid { setup with libraries := libraries }
          moduleDir includeList excludeList fs
        = createProjectFile p addFilesToProject name uuid setup moduleDir includeList
            excludeList fs
      ∧ (fs.writable (setup.outputDir ++ "/CMakeLists.txt") = true →
        ∃ files : String,
          createProjectFile p addFilesToProject setup.projectName uuid
              { setup with libraries := libraries } moduleDir includeList excludeList fs
            = .done (fs.close (setup.outputDir ++ "/CMakeLists.txt")
                (fs.content (setup.outputDir ++ "/CMakeLists.txt")
                  ++ ("add_executable(" ++ setup.projectName ++ "\n" ++ files ++ ")\n")
                  ++ ("target_link_libraries(" ++ setup.projectName ++ "\n"
                    ++ "\t$\x7bSDL_LIBRARY\x7d\n"
                    ++ "\t$\x7bFREETYPE_LIBRARIES\x7d\n"
                    ++ "\t$\x7bZLIB_LIBRARIES\x7d\n"
                    ++ "\tGL\n"
                    ++ String.join (((p._uuidMap.map Prod.fst).filter
                        (fun n => n ≠ setup.projectName)).map (fun n => "\t" ++ n ++ "\n"))
                    ++ ")\n")))) := by
  have hsame : ∀ n : String,
      createProjectFile p addFilesToProject n uuid { setup with libraries := libraries }
          moduleDir includeList excludeList fs
        = createProjectFile p addFilesToProject n uuid setup moduleDir includeList
            excludeList fs := fun _ => rfl
  refine ⟨hsame name, fun hopen => ?_⟩
  obtain ⟨mp, hmp⟩ := modulePath_total moduleDir setup.srcDir
  refine ⟨addFilesToProject moduleDir includeList excludeList
    (if mp.length ≠ 0 then setup.filePrefix ++ "/" ++ mp else setup.filePrefix), ?_⟩
  rw [hsame, createProjectFile_executable p addFilesToProject uuid setup moduleDir includeList
    excludeList fs mp hopen hmp]
  simp only [String.append_assoc]

/-- Witness of C13, amended, on the sample project with the external library
"winmm". -/
theorem createProjectFile_ignores_libraries_witness :
    emptyFileSystem.writable (demoSetup.outputDir ++ "/CMakeLists.txt") = true
      ∧ ∃ files : String,
          createProjectFile demoProvider demoAddFiles demoSetup.projectName "id1"
              { demoSetup with libraries := ["winmm"] } "/src" [] [] emptyFileSystem
            = .done (emptyFileSystem.close (demoSetup.outputDir ++ "/CMakeLists.txt")
                (emptyFileSystem.content (demoSetup.outputDir ++ "/CMakeLists.txt")
                  ++ ("add_executable(" ++ demoSetup.projectName ++ "\n" ++ files ++ ")\n")
                  ++ ("target_link_libraries(" ++ demoSetup.projectName ++ "\n"
                    ++ "\t$\x7bSDL_LIBRARY\x7d\n"
                    ++ "\t$\x7bFREETYPE_LIBRARIES\x7d\n"
                    ++ "\t$\x7bZLIB_LIBRARIES\x7d\n"
                    ++ "\tGL\n"
                    ++ String.join (((demoProvider._uuidMap.map Prod.fst).filter
                        (fun n => n ≠ demoSetup.projectName)).map (fun n => "\t" ++ n ++ "\n"))
                    ++ ")\n"))) :=
  ⟨rfl, (createProjectFile_ignores_libraries demoProvider demoAddFiles "main" "id1" demoSetup
    ["winmm"] "/src" [] [] emptyFileSystem).2 rfl⟩

/-- C16, the code at the failing input: for the project "main" and the
registry of "enginelib" and "main", writeReferences writes a Depends entry
for the project "main" itself; the loop skips a target only when its name is
the text " << PROJECT_NAME << ". -/
theorem writeReferences_lists_project_itself :
    demoSetup.projectName = "main"
      ∧ demoProvider._uuidMap.map Prod.fst = ["enginelib", "main"]
      ∧ writeReferences demoProvider demoSetup ""
        = "\t\t<Project filename=\"main.cbp\" active=\"1\">\n"
          ++ "\t\t\t<Depends filename=\"enginelib.cbp\" />\n"
          ++ "\t\t\t<Depends filename=\"main.cbp\" />\n"
          ++ "\t\t</Project>\n" := by
  decide

end CreateProjectTool
